import Mathlib

/-!
# Verification of the scaffold-cleanup scripts

A shallow embedding of the two cleanup pipelines of the repository:

* `scripts/cleanup-scaffolding.js` (frontend variant), embedded as
  `cleanupScaffolding`;
* `scripts/cleanup-scaffolding-backend.js` (backend variant), embedded as
  `cleanupScaffoldingBackend`.

The file tree rooted at the plugin path is modelled as an association list
from paths (lists of segments) to file contents (strings).  Directories are
implicit: a directory exists when some file lives at or below its path.
Empty directories are not representable; the scaffolded packages the scripts
operate on never rely on them.

`JSON.parse(...).backstage?.pluginId` is modelled by a parse function
parameter `parse : String → Option (Option String)`; `none` models a parse
exception, `some none` a manifest without the nested `backstage.pluginId`
field, and `some (some pid)` a manifest carrying the identifier `pid`.

The regular expressions used by the scripts (all of which are built from
literal characters, the quote class, optional single characters and
whitespace stars) are modelled by a small greedy matcher over `List Char`;
for these particular patterns greedy matching without backtracking agrees
with JavaScript regex semantics, and global `String.prototype.replace`
corresponds to `gsub` below (left-to-right non-overlapping matches found
in the input, replacements never rescanned).
-/

/-- A path below the plugin root, as a list of segments. -/
abbrev FsPath := List String

/-- A file tree: a finite association of paths to file contents. -/
abbrev FS := List (FsPath × String)

/-- `fs.readFileSync(p)`: the content of the file at `p`, if a file is there
(the first matching entry; on trees with `NodupKeys` there is at most one). -/
def readFileSync : FS → FsPath → Option String
  | [], _ => none
  | e :: es, p => if e.1 = p then some e.2 else readFileSync es p

/-- `fs.existsSync(p)`: true when a file lives at `p` or strictly below it
(i.e. `p` exists as a file or as a directory). -/
def existsSync (fs : FS) (p : FsPath) : Bool :=
  fs.any (fun e => p.isPrefixOf e.1)

/-- `fs.rmSync(p, { recursive: true, force: true })`: drop every file at or
below `p`. -/
def rmSync (fs : FS) (p : FsPath) : FS :=
  fs.filter (fun e => !(p.isPrefixOf e.1))

/-- `fs.unlinkSync(p)`: drop the file at exactly `p`. -/
def unlinkSync (fs : FS) (p : FsPath) : FS :=
  fs.filter (fun e => !(decide (e.1 = p)))

/-- `fs.writeFileSync(p, c)`: overwrite the file at `p`, or create it.
The entry order of unrelated files is preserved. -/
def writeFileSync (fs : FS) (p : FsPath) (c : String) : FS :=
  if (readFileSync fs p).isSome then
    fs.map (fun e => if e.1 = p then (p, c) else e)
  else fs ++ [(p, c)]

/-- Errors a run can end with (`process.exit(1)` paths and the caught
exception of the `try` block; `renameTarget` models `fs.renameSync`
failing because the destination already exists). -/
inductive Err where
  | missingDir
  | missingManifest
  | parseError
  | missingId
  | renameTarget
  deriving DecidableEq, Repr

/-- `fs.renameSync(o, n)` on a directory (or file): fails if anything already
lives at or below the destination, otherwise re-roots every file below `o`
to live below `n`. -/
def renameSync (fs : FS) (o n : FsPath) : Except Err FS :=
  if fs.any (fun e => n.isPrefixOf e.1) then Except.error Err.renameTarget
  else Except.ok (fs.map (fun e =>
    if o.isPrefixOf e.1 then (n ++ e.1.drop o.length, e.2) else e))

/-- No two entries of the tree carry the same path (true of any real file
tree). -/
def NodupKeys (fs : FS) : Prop := (fs.map Prod.fst).Nodup

instance (fs : FS) : Decidable (NodupKeys fs) := by
  unfold NodupKeys; infer_instance

/-! ## The pattern engine -/

/-- One element of a pattern: a literal character, a character class,
an optional character (`x?`) or a greedy star over a class (`\s*`). -/
inductive RElem where
  | lit : Char → RElem
  | cls : List Char → RElem
  | opt : Char → RElem
  | star : List Char → RElem

/-- The characters of JavaScript `\s` that occur in practice. -/
def wsChars : List Char := [' ', '\t', '\n', '\r']

/-- The regex character class `['"]`. -/
def qcls : List Char := ['\'', '"']

/-- Greedily drop leading characters belonging to a class. -/
def dropStar (cs : List Char) : List Char → List Char
  | [] => []
  | c :: rest => if cs.contains c then dropStar cs rest else c :: rest

/-- Greedy match of a pattern at the start of a string; returns the suffix
after the match.  For the patterns of the scripts (where no star/option is
followed by a character it could itself consume) this agrees with
JavaScript's backtracking semantics. -/
def matchAt : List RElem → List Char → Option (List Char)
  | [], s => some s
  | RElem.lit c :: p, c' :: s => if c = c' then matchAt p s else none
  | RElem.lit _ :: _, [] => none
  | RElem.cls cs :: p, c' :: s => if cs.contains c' then matchAt p s else none
  | RElem.cls _ :: _, [] => none
  | RElem.opt c :: p, c' :: s =>
    if c = c' then matchAt p s else matchAt p (c' :: s)
  | RElem.opt _ :: p, [] => matchAt p []
  | RElem.star cs :: p, s => matchAt p (dropStar cs s)

/-- Helper for `gsub`, structurally recursive on a fuel argument so that it
evaluates inside the kernel; every recursive call strictly shrinks the
string, so fuel `s.length` never runs out. -/
def gsubAux (p : List RElem) (r : List Char) : Nat → List Char → List Char
  | 0, s => s
  | _ + 1, [] => []
  | fuel + 1, c :: rest =>
    match matchAt p (c :: rest) with
    | some rem =>
      if rem.length < rest.length + 1 then r ++ gsubAux p r fuel rem
      else c :: gsubAux p r fuel rest
    | none => c :: gsubAux p r fuel rest

/-- Global replace: scan left to right, replace each (non-empty) match,
continue after it; the replacement is never rescanned.  This is
`String.prototype.replace` with a `/g` regex, for patterns that cannot
match the empty string. -/
def gsub (p : List RElem) (r : List Char) (s : List Char) : List Char :=
  gsubAux p r s.length s

/-- Global replace on strings. -/
def rsub (p : List RElem) (r s : String) : String := ⟨gsub p r.data s.data⟩

/-- A pattern matching one literal string. -/
def plit (t : String) : List RElem := t.data.map RElem.lit

/-- Does `pat` occur as a substring? -/
def occurs (pat : List Char) : List Char → Bool
  | [] => pat.isEmpty
  | c :: rest => pat.isPrefixOf (c :: rest) || occurs pat rest

/-! ## Name derivation (cleanup-scaffolding.js, lines 412-417 and 443-444) -/

/-- `word.charAt(0).toUpperCase() + word.slice(1)` (ASCII uppercasing). -/
def capitalize (w : String) : String :=
  match w.data with
  | [] => ""
  | c :: rest => ⟨c.toUpper :: rest⟩

/-- JavaScript `str.split('-')` (so `""` yields `[""]`, and empty segments
are kept). -/
def splitDash : List Char → List (List Char)
  | [] => [[]]
  | c :: rest =>
    if c = '-' then [] :: splitDash rest
    else
      match splitDash rest with
      | [] => [[c]]
      | w :: ws => (c :: w) :: ws

/-- `toPascalCase`: split on `-`, capitalize each segment, join. -/
def toPascalCase (s : String) : String :=
  String.join ((splitDash s.data).map (fun w => capitalize ⟨w⟩))

/-- `componentName = toPascalCase(pluginId) + 'Page'`. -/
def componentName (pid : String) : String := toPascalCase pid ++ "Page"

/-! ## Paths used by the scripts -/

def packageJsonPath : FsPath := ["package.json"]
def exampleFetchDir : FsPath := ["src", "components", "ExampleFetchComponent"]
def exampleComponentDir : FsPath := ["src", "components", "ExampleComponent"]
def newComponentDir (cn : String) : FsPath := ["src", "components", cn]
def componentFilePath (cn : String) : FsPath :=
  newComponentDir cn ++ ["ExampleComponent.tsx"]
def newComponentFilePath (cn : String) : FsPath :=
  newComponentDir cn ++ [cn ++ ".tsx"]
def testFilePath (cn : String) : FsPath :=
  newComponentDir cn ++ ["ExampleComponent.test.tsx"]
def newTestFilePath (cn : String) : FsPath :=
  newComponentDir cn ++ [cn ++ ".test.tsx"]
def indexFilePath (cn : String) : FsPath :=
  newComponentDir cn ++ ["index.ts"]
def pluginTsPath : FsPath := ["src", "plugin.ts"]
def devDirPath : FsPath := ["dev"]
def pluginTestTsPath : FsPath := ["src", "plugin.test.ts"]
def servicesDirPath : FsPath := ["src", "services"]
def routerTsPath : FsPath := ["src", "router.ts"]
def routerTestTsPath : FsPath := ["src", "router.test.ts"]

/-! ## The substitution rules (transcribed from the regexes in the scripts) -/

/-- `/import \{ ExampleFetchComponent \} from ['"]\.\.\/ExampleFetchComponent['"'];?\n?/g` -/
def patFetchImport : List RElem :=
  plit "import \x7b ExampleFetchComponent \x7d from " ++ [RElem.cls qcls] ++
    plit "../ExampleFetchComponent" ++ [RElem.cls qcls] ++
    [RElem.opt ';', RElem.opt '\n']

/-- `/\s*<Grid item>\s*<ExampleFetchComponent \/>\s*<\/Grid>\s*/g` -/
def patGridBlock : List RElem :=
  [RElem.star wsChars] ++ plit "<Grid item>" ++ [RElem.star wsChars] ++
    plit "<ExampleFetchComponent />" ++ [RElem.star wsChars] ++
    plit "</Grid>" ++ [RElem.star wsChars]

/-- `/export const ExampleComponent/g` -/
def patExportConst : List RElem := plit "export const ExampleComponent"

/-- `/from ['"]\.\/ExampleComponent['"]/g` -/
def patFromExample : List RElem :=
  plit "from " ++ [RElem.cls qcls] ++ plit "./ExampleComponent" ++
    [RElem.cls qcls]

/-- `/ExampleComponent/g` -/
def patExampleLit : List RElem := plit "ExampleComponent"

/-- `/import\(['"]\.\/components\/ExampleComponent['"]\)/g` -/
def patImportComponents : List RElem :=
  plit "import(" ++ [RElem.cls qcls] ++ plit "./components/ExampleComponent" ++
    [RElem.cls qcls] ++ plit ")"

/-- `/m\.ExampleComponent/g` -/
def patMDot : List RElem := plit "m.ExampleComponent"

/-- `/import \{ todoListServiceRef \} from ['"]\.\/services\/TodoListService['"'];?\n?/g` -/
def patTodoImport : List RElem :=
  plit "import \x7b todoListServiceRef \x7d from " ++ [RElem.cls qcls] ++
    plit "./services/TodoListService" ++ [RElem.cls qcls] ++
    [RElem.opt ';', RElem.opt '\n']

/-- `/\s*todoList: todoListServiceRef,?\n?/g` -/
def patTodoDep : List RElem :=
  [RElem.star wsChars] ++ plit "todoList: todoListServiceRef" ++
    [RElem.opt ',', RElem.opt '\n']

/-- `/,?\s*todoList\s*,?/g` -/
def patTodoParam : List RElem :=
  [RElem.opt ','] ++ [RElem.star wsChars] ++ plit "todoList" ++
    [RElem.star wsChars] ++ [RElem.opt ',']

/-- `/await createRouter\(\{\s*httpAuth,?\s*\}\)/g` -/
def patCreateRouter : List RElem :=
  plit "await createRouter(\x7b" ++ [RElem.star wsChars] ++ plit "httpAuth" ++
    [RElem.opt ','] ++ [RElem.star wsChars] ++ plit "\x7d)"

/-- The content substitutions of step 3 of the frontend script
(lines 480-486), in source order. -/
def substComponentFile (cn c : String) : String :=
  rsub patExportConst ("export const " ++ cn)
    (rsub patGridBlock "" (rsub patFetchImport "" c))

/-- The content substitutions of steps 4 and 5 of the frontend script
(lines 504-505 and 517-518; both files get the same two rules), in source
order: rewrite the import path, then replace every occurrence of the
placeholder name. -/
def substUnitRefs (cn c : String) : String :=
  rsub patExampleLit cn
    (rsub patFromExample ("from './" ++ cn ++ "'") c)

/-- The `plugin.ts` substitutions of step 6 of the frontend script
(lines 533-539), in source order. -/
def patchPluginFE (cn c : String) : String :=
  rsub patMDot ("m." ++ cn)
    (rsub patImportComponents ("import('./components/" ++ cn ++ "')") c)

/-- The `plugin.ts` substitutions of step 3 of the backend script
(lines 106-118), in source order. -/
def patchPluginBE (c : String) : String :=
  rsub patCreateRouter "await createRouter(\x7b httpAuth \x7d)"
    (rsub patTodoParam ""
      (rsub patTodoDep ""
        (rsub patTodoImport "" c)))

/-- The fixed `simpleRouter` content written over `src/router.ts` by the
backend script (lines 69-92). -/
def simpleRouter : String :=
  "import \x7b HttpAuthService \x7d from '@backstage/backend-plugin-api';\nimport express from 'express';\nimport Router from 'express-promise-router';\n\nexport interface RouterOptions \x7b\n  httpAuth: HttpAuthService;\n\x7d\n\nexport async function createRouter(\n  options: RouterOptions,\n): Promise<express.Router> \x7b\n  const router = Router();\n  router.use(express.json());\n\n  // Mark options as used to satisfy TypeScript when no auth is wired yet\n  void options;\n\n  router.get('/health', (_req, res) => \x7b\n    res.json(\x7b status: 'ok' \x7d);\n  \x7d);\n\n  return router;\n\x7d\n"

/-! ## The pipeline steps -/

/-- Outcome of one removal sub-step. -/
inductive RemovalOutcome where
  | removed
  | skipped
  deriving DecidableEq, Repr

/-- The removal pattern both scripts use for directories:
`if (fs.existsSync(t)) fs.rmSync(t, { recursive: true, force: true })`. -/
def removeStep (fs : FS) (t : FsPath) : FS × RemovalOutcome :=
  if existsSync fs t then (rmSync fs t, RemovalOutcome.removed)
  else (fs, RemovalOutcome.skipped)

/-- The removal pattern both scripts use for single files:
`if (fs.existsSync(p)) fs.unlinkSync(p)` (the guard is modelled by the file
being present, which is when `unlinkSync` succeeds). -/
def removeFileStep (fs : FS) (p : FsPath) : FS :=
  if (readFileSync fs p).isSome then unlinkSync fs p else fs

/-- The Tree Remover of the specification: `removeStep` folded over an
ordered list of removal targets, recording one outcome per target. -/
def runRemover (fs : FS) : List FsPath → FS × List RemovalOutcome
  | [] => (fs, [])
  | t :: ts =>
    let r := removeStep fs t
    let rest := runRemover r.1 ts
    (rest.1, r.2 :: rest.2)

/-- A primitive mutation, used to expose the order of writes and deletes
inside one sub-step. -/
inductive FsOp where
  | write : FsPath → String → FsOp
  | unlink : FsPath → FsOp

def applyOp (fs : FS) : FsOp → FS
  | FsOp.write p c => writeFileSync fs p c
  | FsOp.unlink p => unlinkSync fs p

def applyOps (fs : FS) : List FsOp → FS
  | [] => fs
  | op :: ops => applyOps (applyOp fs op) ops

/-- Step 3 of the frontend script (lines 473-494): if the main component
file exists (inside the already-renamed directory), rewrite its content,
write it under the new name first, then delete the old file. -/
def componentFileOps (cn : String) (fs : FS) : List FsOp :=
  match readFileSync fs (componentFilePath cn) with
  | some c =>
    [FsOp.write (newComponentFilePath cn) (substComponentFile cn c),
     FsOp.unlink (componentFilePath cn)]
  | none => []

def componentFileStep (cn : String) (fs : FS) : FS :=
  applyOps fs (componentFileOps cn fs)

/-- Step 4 of the frontend script (lines 497-510): same write-then-delete
shape for the test file. -/
def testFileOps (cn : String) (fs : FS) : List FsOp :=
  match readFileSync fs (testFilePath cn) with
  | some c =>
    [FsOp.write (newTestFilePath cn) (substUnitRefs cn c),
     FsOp.unlink (testFilePath cn)]
  | none => []

def testFileStep (cn : String) (fs : FS) : FS :=
  applyOps fs (testFileOps cn fs)

/-- Step 5 of the frontend script (lines 513-522): rewrite `index.ts` in
place if it exists. -/
def indexFileStep (cn : String) (fs : FS) : FS :=
  match readFileSync fs (indexFilePath cn) with
  | some c => writeFileSync fs (indexFilePath cn) (substUnitRefs cn c)
  | none => fs

/-- Steps 2-5 of the frontend script (lines 466-523): applied only when the
placeholder directory exists; the directory is renamed first, then the three
per-file sub-steps run, each guarded by its own file's existence. -/
def renameBlock (cn : String) (fs : FS) : FS × Option Err :=
  if existsSync fs exampleComponentDir then
    match renameSync fs exampleComponentDir (newComponentDir cn) with
    | Except.error e => (fs, some e)
    | Except.ok fs1 =>
      (indexFileStep cn (testFileStep cn (componentFileStep cn fs1)), none)
  else (fs, none)

/-- Step 6 of the frontend script (lines 528-543): patch `plugin.ts` if it
exists (runs whether or not the placeholder directory existed). -/
def patchPluginFEStep (cn : String) (fs : FS) : FS :=
  match readFileSync fs pluginTsPath with
  | some c => writeFileSync fs pluginTsPath (patchPluginFE cn c)
  | none => fs

/-- Steps 1-7 of the frontend script after validation. -/
def mutateFE (cn : String) (fs : FS) : FS × Option Err :=
  let fsA := (removeStep fs exampleFetchDir).1
  match renameBlock cn fsA with
  | (fsR, some e) => (fsR, some e)
  | (fsR, none) =>
    let fs3 := patchPluginFEStep cn fsR
    let fs4 := (removeStep fs3 devDirPath).1
    let fs5 := removeFileStep fs4 pluginTestTsPath
    (fs5, none)

/-- `cleanup-scaffolding.js`: validation (lines 423-441), then steps 1-7.
The plugin-directory existence check is modelled by the tree being
non-empty. -/
def cleanupScaffolding (parse : String → Option (Option String)) (fs : FS) :
    FS × Option Err :=
  if fs.isEmpty then (fs, some Err.missingDir)
  else
    match readFileSync fs packageJsonPath with
    | none => (fs, some Err.missingManifest)
    | some m =>
      match parse m with
      | none => (fs, some Err.parseError)
      | some none => (fs, some Err.missingId)
      | some (some pid) =>
        if pid.isEmpty then (fs, some Err.missingId)
        else mutateFE (componentName pid) fs

/-- Step 2 of the backend script (lines 67-96): overwrite `src/router.ts`
with the fixed `simpleRouter` content whenever the file exists. -/
def routerStep (fs : FS) : FS :=
  match readFileSync fs routerTsPath with
  | some _ => writeFileSync fs routerTsPath simpleRouter
  | none => fs

/-- Step 3 of the backend script (lines 101-122): patch `plugin.ts` if it
exists. -/
def patchPluginBEStep (fs : FS) : FS :=
  match readFileSync fs pluginTsPath with
  | some c => writeFileSync fs pluginTsPath (patchPluginBE c)
  | none => fs

/-- Steps 1-5 of the backend script after validation. -/
def mutateBE (fs : FS) : FS × Option Err :=
  let fs1 := (removeStep fs servicesDirPath).1
  let fs2 := routerStep fs1
  let fs3 := patchPluginBEStep fs2
  let fs4 := removeFileStep fs3 pluginTestTsPath
  let fs5 := removeFileStep fs4 routerTestTsPath
  let fs6 := (removeStep fs5 devDirPath).1
  (fs6, none)

/-- `cleanup-scaffolding-backend.js`: validation (lines 32-50), then
steps 1-5.  The backend variant derives no component name; the identifier
is only validated and echoed. -/
def cleanupScaffoldingBackend (parse : String → Option (Option String))
    (fs : FS) : FS × Option Err :=
  if fs.isEmpty then (fs, some Err.missingDir)
  else
    match readFileSync fs packageJsonPath with
    | none => (fs, some Err.missingManifest)
    | some m =>
      match parse m with
      | none => (fs, some Err.parseError)
      | some none => (fs, some Err.missingId)
      | some (some pid) =>
        if pid.isEmpty then (fs, some Err.missingId)
        else mutateBE fs

/-! ## Basic facts about the file-tree primitives -/

theorem isPrefixOf_eq_false_iff {α : Type} [BEq α] [LawfulBEq α]
    {l₁ l₂ : List α} : l₁.isPrefixOf l₂ = false ↔ ¬ l₁ <+: l₂ := by
  constructor
  · intro h hpre
    rw [← @List.isPrefixOf_iff_prefix _ _ _ l₁ l₂] at hpre
    rw [h] at hpre
    cases hpre
  · intro h
    cases hb : l₁.isPrefixOf l₂
    · rfl
    · exact absurd (List.isPrefixOf_iff_prefix.mp hb) h

theorem readFileSync_ne_nil {fs : FS} {p : FsPath} {c : String}
    (h : readFileSync fs p = some c) : fs.isEmpty = false := by
  cases fs with
  | nil => simp [readFileSync] at h
  | cons e es => rfl

theorem readFileSync_none_iff {fs : FS} {p : FsPath} :
    readFileSync fs p = none ↔ ∀ e ∈ fs, e.1 ≠ p := by
  induction fs with
  | nil => simp [readFileSync]
  | cons e es ih =>
    by_cases h : e.1 = p <;> simp [readFileSync, h, ih]

theorem existsSync_eq_false_iff {fs : FS} {d : FsPath} :
    existsSync fs d = false ↔ ∀ e ∈ fs, ¬ d <+: e.1 := by
  simp [existsSync, List.any_eq_false, List.isPrefixOf_iff_prefix]

theorem existsSync_of_readFileSync {fs : FS} {p : FsPath} {c : String}
    (h : readFileSync fs p = some c) : existsSync fs p = true := by
  induction fs with
  | nil => simp [readFileSync] at h
  | cons e es ih =>
    by_cases he : e.1 = p
    · subst he
      simp [existsSync, List.isPrefixOf_iff_prefix]
    · rw [readFileSync, if_neg he] at h
      have := ih h
      simp only [existsSync, List.any_cons, Bool.or_eq_true]
      exact Or.inr (by simpa [existsSync] using this)

theorem readFileSync_none_of_existsSync_false {fs : FS} {d q : FsPath}
    (hd : existsSync fs d = false) (hq : d <+: q) :
    readFileSync fs q = none := by
  rw [readFileSync_none_iff]
  intro e he heq
  exact (existsSync_eq_false_iff.mp hd e he) (heq ▸ hq)

theorem readFileSync_rmSync_of_not_pref {fs : FS} {t q : FsPath}
    (h : ¬ t <+: q) :
    readFileSync (rmSync fs t) q = readFileSync fs q := by
  induction fs with
  | nil => rfl
  | cons e es ih =>
    by_cases ht : t <+: e.1
    · have hne : e.1 ≠ q := fun hh => h (hh ▸ ht)
      rw [rmSync, List.filter_cons_of_neg
        (by simp [List.isPrefixOf_iff_prefix, ht])]
      rw [readFileSync, if_neg hne]
      exact ih
    · rw [rmSync, List.filter_cons_of_pos
        (by simp [isPrefixOf_eq_false_iff, ht])]
      simp only [readFileSync]
      by_cases heq : e.1 = q
      · rw [if_pos heq, if_pos heq]
      · rw [if_neg heq, if_neg heq]
        exact ih

theorem readFileSync_rmSync_of_pref {fs : FS} {t q : FsPath}
    (h : t <+: q) :
    readFileSync (rmSync fs t) q = none := by
  rw [readFileSync_none_iff]
  intro e he heq
  have hmem := List.of_mem_filter he
  rw [heq] at hmem
  simp only [Bool.not_eq_true', isPrefixOf_eq_false_iff] at hmem
  exact hmem h

theorem readFileSync_unlinkSync_self {fs : FS} {p : FsPath} :
    readFileSync (unlinkSync fs p) p = none := by
  rw [readFileSync_none_iff]
  intro e he heq
  have hmem := List.of_mem_filter he
  rw [heq] at hmem
  simp at hmem

theorem readFileSync_unlinkSync_other {fs : FS} {p q : FsPath}
    (h : q ≠ p) : readFileSync (unlinkSync fs p) q = readFileSync fs q := by
  induction fs with
  | nil => rfl
  | cons e es ih =>
    by_cases he : e.1 = p
    · have hne : e.1 ≠ q := fun hh => h (by rw [← hh, he])
      rw [unlinkSync, List.filter_cons_of_neg (by simp [he])]
      rw [readFileSync, if_neg hne]
      exact ih
    · rw [unlinkSync, List.filter_cons_of_pos (by simp [he])]
      simp only [readFileSync]
      by_cases heq : e.1 = q
      · rw [if_pos heq, if_pos heq]
      · rw [if_neg heq, if_neg heq]
        exact ih

theorem unlinkSync_id {fs : FS} {p : FsPath}
    (h : readFileSync fs p = none) : unlinkSync fs p = fs := by
  rw [readFileSync_none_iff] at h
  induction fs with
  | nil => rfl
  | cons e es ih =>
    have he : e.1 ≠ p := h e (List.mem_cons_self e es)
    rw [unlinkSync, List.filter_cons_of_pos (by simp [he])]
    have : unlinkSync es p = es :=
      ih (fun x hx => h x (List.mem_cons_of_mem e hx))
    rw [unlinkSync] at this
    rw [this]

theorem readFileSync_append_of_none {l₁ l₂ : FS} {p : FsPath}
    (h : readFileSync l₁ p = none) :
    readFileSync (l₁ ++ l₂) p = readFileSync l₂ p := by
  induction l₁ with
  | nil => rfl
  | cons e es ih =>
    by_cases he : e.1 = p
    · rw [readFileSync, if_pos he] at h
      cases h
    · rw [readFileSync, if_neg he] at h
      rw [List.cons_append, readFileSync, if_neg he]
      exact ih h

theorem readFileSync_writeFileSync_self {fs : FS} {p : FsPath} {c : String} :
    readFileSync (writeFileSync fs p c) p = some c := by
  unfold writeFileSync
  by_cases hs : (readFileSync fs p).isSome
  · rw [if_pos hs]
    induction fs with
    | nil => simp [readFileSync] at hs
    | cons e es ih =>
      by_cases he : e.1 = p
      · simp [readFileSync, he]
      · rw [readFileSync, if_neg he] at hs
        simp only [List.map_cons, if_neg he]
        rw [readFileSync, if_neg he]
        exact ih hs
  · rw [if_neg hs]
    have hn : readFileSync fs p = none := by
      cases hr : readFileSync fs p
      · rfl
      · rw [hr] at hs
        simp at hs
    rw [readFileSync_append_of_none hn]
    simp [readFileSync]

theorem readFileSync_map_set_other {fs : FS} {p q : FsPath} {c : String}
    (h : q ≠ p) :
    readFileSync (fs.map (fun e => if e.1 = p then (p, c) else e)) q =
      readFileSync fs q := by
  induction fs with
  | nil => rfl
  | cons e es ih =>
    by_cases he : e.1 = p
    · have hne : e.1 ≠ q := by
        rw [he]
        exact fun hh => h hh.symm
      simp only [List.map_cons, if_pos he]
      rw [readFileSync, if_neg (fun hh : p = q => h hh.symm)]
      rw [readFileSync, if_neg hne]
      exact ih
    · simp only [List.map_cons, if_neg he]
      simp only [readFileSync]
      by_cases heq : e.1 = q
      · rw [if_pos heq, if_pos heq]
      · rw [if_neg heq, if_neg heq]
        exact ih

theorem readFileSync_append_single_other {fs : FS} {p q : FsPath} {c : String}
    (h : q ≠ p) :
    readFileSync (fs ++ [(p, c)]) q = readFileSync fs q := by
  induction fs with
  | nil =>
    show readFileSync [(p, c)] q = none
    rw [readFileSync, if_neg (fun hh : p = q => h hh.symm)]
    rfl
  | cons e es ih =>
    rw [List.cons_append]
    simp only [readFileSync]
    by_cases heq : e.1 = q
    · rw [if_pos heq, if_pos heq]
    · rw [if_neg heq, if_neg heq]
      exact ih

theorem readFileSync_writeFileSync_other {fs : FS} {p q : FsPath} {c : String}
    (h : q ≠ p) : readFileSync (writeFileSync fs p c) q = readFileSync fs q := by
  unfold writeFileSync
  by_cases hs : (readFileSync fs p).isSome
  · rw [if_pos hs]
    exact readFileSync_map_set_other h
  · rw [if_neg hs]
    exact readFileSync_append_single_other h

theorem existsSync_rmSync_self {fs : FS} {t : FsPath} :
    existsSync (rmSync fs t) t = false := by
  rw [existsSync_eq_false_iff]
  intro e he
  have hmem := List.of_mem_filter he
  simp only [Bool.not_eq_true', isPrefixOf_eq_false_iff] at hmem
  exact hmem

theorem existsSync_filter_false {fs : FS} {d : FsPath} {f : FsPath × String → Bool}
    (h : existsSync fs d = false) :
    existsSync (fs.filter f) d = false := by
  rw [existsSync_eq_false_iff] at *
  intro e he
  exact h e (List.mem_of_mem_filter he)

theorem existsSync_rmSync_false {fs : FS} {t d : FsPath}
    (h : existsSync fs d = false) : existsSync (rmSync fs t) d = false :=
  existsSync_filter_false h

theorem existsSync_unlinkSync_false {fs : FS} {p d : FsPath}
    (h : existsSync fs d = false) : existsSync (unlinkSync fs p) d = false :=
  existsSync_filter_false h

theorem existsSync_writeFileSync_false {fs : FS} {p d : FsPath} {c : String}
    (h : existsSync fs d = false) (hp : ¬ d <+: p) :
    existsSync (writeFileSync fs p c) d = false := by
  unfold writeFileSync
  by_cases hs : (readFileSync fs p).isSome
  · rw [if_pos hs]
    rw [existsSync_eq_false_iff] at *
    intro e he
    rcases List.mem_map.mp he with ⟨a, ha, hae⟩
    by_cases hap : a.1 = p
    · rw [← hae]
      simpa [hap] using hp
    · rw [← hae]
      simpa [hap] using h a ha
  · rw [if_neg hs]
    rw [existsSync_eq_false_iff] at *
    intro e he
    rcases List.mem_append.mp he with he1 | he1
    · exact h e he1
    · rcases List.mem_singleton.mp he1 with rfl
      exact hp

/-- Inverting a successful `renameSync`. -/
theorem renameSync_ok_eq {fs fs' : FS} {o n : FsPath}
    (h : renameSync fs o n = Except.ok fs') :
    fs' = fs.map (fun e =>
      if o.isPrefixOf e.1 then (n ++ e.1.drop o.length, e.2) else e) := by
  unfold renameSync at h
  by_cases hc : fs.any (fun e => n.isPrefixOf e.1)
  · rw [if_pos hc] at h
    cases h
  · rw [if_neg hc] at h
    exact (Except.ok.inj h).symm

theorem renameSync_ok_no_target {fs fs' : FS} {o n : FsPath}
    (h : renameSync fs o n = Except.ok fs') :
    ∀ e ∈ fs, ¬ n <+: e.1 := by
  unfold renameSync at h
  by_cases hc : fs.any (fun e => n.isPrefixOf e.1)
  · rw [if_pos hc] at h
    cases h
  · intro e he
    have hc2 : (List.any fs fun e => List.isPrefixOf n e.1) = false := by
      cases hb : List.any fs fun e => List.isPrefixOf n e.1
      · rfl
      · exact absurd hb hc
    rw [List.any_eq_false] at hc2
    simpa [List.isPrefixOf_iff_prefix] using hc2 e he

/-- A prefix no longer than the left part of an append is a prefix of the
left part. -/
theorem prefix_of_append_of_le {α : Type} {d n r : List α}
    (hl : d.length ≤ n.length) (h : d <+: n ++ r) : d <+: n := by
  rw [List.prefix_iff_eq_take] at h ⊢
  rw [List.take_append_eq_append_take] at h
  have h0 : d.length - n.length = 0 := Nat.sub_eq_zero_of_le hl
  rw [h0, List.take_zero, List.append_nil] at h
  exact h

/-- After a successful rename away from `o` (to a different place of the same
depth), nothing is left at or below `o`. -/
theorem existsSync_renameSync_old {fs fs' : FS} {o n : FsPath}
    (hlen : o.length = n.length) (hne : o ≠ n)
    (h : renameSync fs o n = Except.ok fs') :
    existsSync fs' o = false := by
  rw [renameSync_ok_eq h, existsSync_eq_false_iff]
  intro e he
  rcases List.mem_map.mp he with ⟨a, _, hae⟩
  by_cases hap : o.isPrefixOf a.1
  · rw [← hae]
    simp only [if_pos hap]
    intro hpre
    have h2 : o <+: n :=
      prefix_of_append_of_le (Nat.le_of_eq hlen) hpre
    exact hne (h2.eq_of_length hlen)
  · rw [← hae]
    simp only [if_neg hap]
    intro hpre
    exact hap (List.isPrefixOf_iff_prefix.mpr hpre)

/-- Absence below `d` survives a rename whose destination is not below `d`
(with `d` no deeper than the destination). -/
theorem existsSync_renameSync_false {fs fs' : FS} {o n d : FsPath}
    (hl : d.length ≤ n.length) (hdn : ¬ d <+: n)
    (hd : existsSync fs d = false)
    (h : renameSync fs o n = Except.ok fs') :
    existsSync fs' d = false := by
  rw [renameSync_ok_eq h, existsSync_eq_false_iff]
  rw [existsSync_eq_false_iff] at hd
  intro e he
  rcases List.mem_map.mp he with ⟨a, ha, hae⟩
  by_cases hap : o.isPrefixOf a.1
  · rw [← hae]
    simp only [if_pos hap]
    intro hpre
    exact hdn (prefix_of_append_of_le hl hpre)
  · rw [← hae]
    simp only [if_neg hap]
    exact hd a ha

/-- Files outside both the source and the destination of a rename keep their
content. -/
theorem readFileSync_renameSync_outside {fs fs' : FS} {o n q : FsPath}
    (ho : ¬ o <+: q) (hn : ¬ n <+: q)
    (h : renameSync fs o n = Except.ok fs') :
    readFileSync fs' q = readFileSync fs q := by
  rw [renameSync_ok_eq h]
  clear h
  induction fs with
  | nil => rfl
  | cons e es ih =>
    by_cases hap : o.isPrefixOf e.1
    · have h1 : e.1 ≠ q := by
        intro hh
        exact ho (hh ▸ List.isPrefixOf_iff_prefix.mp hap)
      have h2 : n ++ e.1.drop o.length ≠ q := by
        intro hh
        exact hn (hh ▸ List.prefix_append n _)
      simp only [List.map_cons, if_pos hap]
      rw [readFileSync, if_neg h2, readFileSync, if_neg h1]
      exact ih
    · simp only [List.map_cons, if_neg hap]
      simp only [readFileSync]
      by_cases heq : e.1 = q
      · rw [if_pos heq, if_pos heq]
      · rw [if_neg heq, if_neg heq]
        exact ih

/-! ## Key uniqueness is preserved by every mutation -/

theorem nodupKeys_filter {fs : FS} {f : FsPath × String → Bool}
    (h : NodupKeys fs) : NodupKeys (fs.filter f) :=
  ((fs.filter_sublist).map Prod.fst).nodup h

theorem nodupKeys_rmSync {fs : FS} {t : FsPath} (h : NodupKeys fs) :
    NodupKeys (rmSync fs t) := nodupKeys_filter h

theorem nodupKeys_unlinkSync {fs : FS} {p : FsPath} (h : NodupKeys fs) :
    NodupKeys (unlinkSync fs p) := nodupKeys_filter h

theorem nodupKeys_writeFileSync {fs : FS} {p : FsPath} {c : String}
    (h : NodupKeys fs) : NodupKeys (writeFileSync fs p c) := by
  unfold writeFileSync
  by_cases hs : (readFileSync fs p).isSome
  · rw [if_pos hs]
    unfold NodupKeys at *
    have : (fs.map (fun e => if e.1 = p then (p, c) else e)).map Prod.fst =
        fs.map Prod.fst := by
      rw [List.map_map]
      apply List.map_congr_left
      intro e _
      by_cases he : e.1 = p
      · simp [he]
      · simp [he]
    rw [this]
    exact h
  · rw [if_neg hs]
    have hn : readFileSync fs p = none := by
      cases hr : readFileSync fs p
      · rfl
      · rw [hr] at hs
        simp at hs
    rw [readFileSync_none_iff] at hn
    unfold NodupKeys at *
    rw [List.map_append]
    apply List.Nodup.append h (List.nodup_singleton p)
    intro k hk hk2
    rcases List.mem_map.mp hk with ⟨a, ha, hae⟩
    rcases List.mem_singleton.mp hk2 with rfl
    exact hn a ha hae

theorem nodupKeys_renameSync {fs fs' : FS} {o n : FsPath}
    (hnd : NodupKeys fs) (h : renameSync fs o n = Except.ok fs') :
    NodupKeys fs' := by
  have hno := renameSync_ok_no_target h
  rw [renameSync_ok_eq h]
  unfold NodupKeys at *
  rw [List.map_map]
  have hkeys : fs.map (Prod.fst ∘ fun e =>
      if o.isPrefixOf e.1 then (n ++ e.1.drop o.length, e.2) else e) =
      (fs.map Prod.fst).map
        (fun k => if o.isPrefixOf k then n ++ k.drop o.length else k) := by
    rw [List.map_map]
    apply List.map_congr_left
    intro e _
    by_cases he : o.isPrefixOf e.1
    · simp [Function.comp, he]
    · simp [Function.comp, he]
  rw [hkeys]
  apply hnd.map_on
  intro x hx y hy hxy
  have hxn : ¬ n <+: x := by
    rcases List.mem_map.mp hx with ⟨a, ha, hae⟩
    exact hae ▸ hno a ha
  have hyn : ¬ n <+: y := by
    rcases List.mem_map.mp hy with ⟨a, ha, hae⟩
    exact hae ▸ hno a ha
  by_cases h1 : o.isPrefixOf x <;> by_cases h2 : o.isPrefixOf y
  · rw [if_pos h1, if_pos h2] at hxy
    have hd := List.append_cancel_left hxy
    rcases List.isPrefixOf_iff_prefix.mp h1 with ⟨t1, ht1⟩
    rcases List.isPrefixOf_iff_prefix.mp h2 with ⟨t2, ht2⟩
    rw [← ht1, ← ht2, List.drop_left, List.drop_left] at hd
    rw [← ht1, ← ht2, hd]
  · rw [if_pos h1, if_neg h2] at hxy
    exact absurd (hxy ▸ List.prefix_append n _) hyn
  · rw [if_neg h1, if_pos h2] at hxy
    exact absurd (hxy ▸ List.prefix_append n _) hxn
  · rw [if_neg h1, if_neg h2] at hxy
    exact hxy

/-- Writing back the content a file already has does not change the tree. -/
theorem writeFileSync_same {fs : FS} {p : FsPath} {c : String}
    (hnd : NodupKeys fs) (h : readFileSync fs p = some c) :
    writeFileSync fs p c = fs := by
  unfold writeFileSync
  rw [if_pos (by rw [h]; rfl)]
  unfold NodupKeys at hnd
  induction fs with
  | nil => rfl
  | cons e es ih =>
    rw [List.map_cons] at *
    rw [List.nodup_cons] at hnd
    by_cases he : e.1 = p
    · rw [readFileSync, if_pos he] at h
      have hec : e = (p, c) := by
        cases e with
        | mk k v =>
          simp only at he
          cases Option.some.inj h
          rw [he]
    -- On the tail no key equals p, so the map is the identity there.
      have htail : es.map (fun x => if x.1 = p then (p, c) else x) = es := by
        have hnp : ∀ x ∈ es, x.1 ≠ p := by
          intro x hx hxp
          have hmem : x.1 ∈ List.map Prod.fst es :=
            List.mem_map.mpr ⟨x, hx, rfl⟩
          rw [hxp, ← he] at hmem
          exact hnd.1 hmem
        clear ih hnd h
        induction es with
        | nil => rfl
        | cons f fsx ih2 =>
          rw [List.map_cons, if_neg (hnp f (List.mem_cons_self f fsx))]
          rw [ih2 (fun x hx => hnp x (List.mem_cons_of_mem f hx))]
      rw [if_pos he, htail, hec]
    · rw [readFileSync, if_neg he] at h
      rw [if_neg he, ih hnd.2 h]

/-! ## The derived name never collides with the placeholder names -/

theorem strData_append (a b : String) : (a ++ b).data = a.data ++ b.data := rfl

theorem isPrefixOf_append_self (a b : List Char) :
    a.isPrefixOf (a ++ b) = true := by
  rw [List.isPrefixOf_iff_prefix]
  exact List.prefix_append a b

/-- If (the reverse of) `s` is not a suffix of `t`, then nothing of the form
`x ++ s` equals `t`. -/
theorem append_ne_of_rev (x s t : List Char)
    (h : s.reverse.isPrefixOf t.reverse = false) : x ++ s ≠ t := by
  intro he
  have h2 : s.reverse.isPrefixOf (x ++ s).reverse = true := by
    rw [List.reverse_append]
    exact isPrefixOf_append_self _ _
  rw [he] at h2
  rw [h2] at h
  cases h

theorem componentName_data (pid : String) :
    (componentName pid).data = (toPascalCase pid).data ++ "Page".data :=
  strData_append _ _

theorem componentName_ne_exampleComponent (pid : String) :
    componentName pid ≠ "ExampleComponent" := by
  intro h
  have hd := congrArg String.data h
  rw [componentName_data] at hd
  exact append_ne_of_rev _ _ _ (by decide) hd

theorem componentName_ne_exampleFetch (pid : String) :
    componentName pid ≠ "ExampleFetchComponent" := by
  intro h
  have hd := congrArg String.data h
  rw [componentName_data] at hd
  exact append_ne_of_rev _ _ _ (by decide) hd

theorem componentName_tsx_ne (pid : String) :
    componentName pid ++ ".tsx" ≠ "ExampleComponent.tsx" := by
  intro h
  have hd := congrArg String.data h
  rw [strData_append, componentName_data, List.append_assoc] at hd
  exact append_ne_of_rev _ ("Page".data ++ ".tsx".data) _ (by decide) hd

theorem componentName_test_tsx_ne (pid : String) :
    componentName pid ++ ".test.tsx" ≠ "ExampleComponent.test.tsx" := by
  intro h
  have hd := congrArg String.data h
  rw [strData_append, componentName_data, List.append_assoc] at hd
  exact append_ne_of_rev _ ("Page".data ++ ".test.tsx".data) _ (by decide) hd

theorem componentName_test_tsx_ne_index (pid : String) :
    componentName pid ++ ".test.tsx" ≠ "index.ts" := by
  intro h
  have hd := congrArg String.data h
  rw [strData_append, componentName_data, List.append_assoc] at hd
  exact append_ne_of_rev _ ("Page".data ++ ".test.tsx".data) _ (by decide) hd

theorem componentName_tsx_ne_index (pid : String) :
    componentName pid ++ ".tsx" ≠ "index.ts" := by
  intro h
  have hd := congrArg String.data h
  rw [strData_append, componentName_data, List.append_assoc] at hd
  exact append_ne_of_rev _ ("Page".data ++ ".tsx".data) _ (by decide) hd

theorem componentName_tsx_ne_test_tsx (pid : String) :
    componentName pid ++ ".tsx" ≠ componentName pid ++ ".test.tsx" := by
  intro h
  have := List.append_cancel_left (congrArg String.data h)
  cases this

/-! ## Step-level facts -/

theorem removeStep_absent {fs : FS} {t : FsPath}
    (h : existsSync fs t = false) : removeStep fs t = (fs, RemovalOutcome.skipped) := by
  unfold removeStep
  rw [h]
  rfl

theorem removeStep_present {fs : FS} {t : FsPath}
    (h : existsSync fs t = true) :
    removeStep fs t = (rmSync fs t, RemovalOutcome.removed) := by
  unfold removeStep
  rw [h]
  rfl

theorem readFileSync_removeStep_other {fs : FS} {t q : FsPath}
    (h : ¬ t <+: q) :
    readFileSync (removeStep fs t).1 q = readFileSync fs q := by
  unfold removeStep
  by_cases hg : existsSync fs t
  · rw [if_pos hg]
    exact readFileSync_rmSync_of_not_pref h
  · rw [if_neg hg]

theorem existsSync_removeStep_false {fs : FS} {t d : FsPath}
    (h : existsSync fs d = false) :
    existsSync (removeStep fs t).1 d = false := by
  unfold removeStep
  by_cases hg : existsSync fs t
  · rw [if_pos hg]
    exact existsSync_rmSync_false h
  · rw [if_neg hg]
    exact h

theorem existsSync_removeStep_self {fs : FS} {t : FsPath} :
    existsSync (removeStep fs t).1 t = false := by
  unfold removeStep
  by_cases hg : existsSync fs t
  · rw [if_pos hg]
    exact existsSync_rmSync_self
  · rw [if_neg hg]
    simpa using hg

theorem nodupKeys_removeStep {fs : FS} {t : FsPath} (h : NodupKeys fs) :
    NodupKeys (removeStep fs t).1 := by
  unfold removeStep
  by_cases hg : existsSync fs t
  · rw [if_pos hg]
    exact nodupKeys_rmSync h
  · rw [if_neg hg]
    exact h

theorem removeFileStep_absent {fs : FS} {p : FsPath}
    (h : readFileSync fs p = none) : removeFileStep fs p = fs := by
  unfold removeFileStep
  rw [h]
  rfl

theorem readFileSync_removeFileStep_self {fs : FS} {p : FsPath} :
    readFileSync (removeFileStep fs p) p = none := by
  unfold removeFileStep
  by_cases hg : (readFileSync fs p).isSome
  · rw [if_pos hg]
    exact readFileSync_unlinkSync_self
  · rw [if_neg hg]
    cases hr : readFileSync fs p
    · rfl
    · rw [hr] at hg
      simp at hg

theorem readFileSync_removeFileStep_other {fs : FS} {p q : FsPath}
    (h : q ≠ p) :
    readFileSync (removeFileStep fs p) q = readFileSync fs q := by
  unfold removeFileStep
  by_cases hg : (readFileSync fs p).isSome
  · rw [if_pos hg]
    exact readFileSync_unlinkSync_other h
  · rw [if_neg hg]

theorem existsSync_removeFileStep_false {fs : FS} {p d : FsPath}
    (h : existsSync fs d = false) :
    existsSync (removeFileStep fs p) d = false := by
  unfold removeFileStep
  by_cases hg : (readFileSync fs p).isSome
  · rw [if_pos hg]
    exact existsSync_unlinkSync_false h
  · rw [if_neg hg]
    exact h

theorem nodupKeys_removeFileStep {fs : FS} {p : FsPath} (h : NodupKeys fs) :
    NodupKeys (removeFileStep fs p) := by
  unfold removeFileStep
  by_cases hg : (readFileSync fs p).isSome
  · rw [if_pos hg]
    exact nodupKeys_unlinkSync h
  · rw [if_neg hg]
    exact h

theorem componentFileStep_of_none {cn : String} {fs : FS}
    (h : readFileSync fs (componentFilePath cn) = none) :
    componentFileStep cn fs = fs := by
  unfold componentFileStep componentFileOps
  rw [h]
  rfl

theorem componentFileStep_of_some {cn : String} {fs : FS} {c : String}
    (h : readFileSync fs (componentFilePath cn) = some c) :
    componentFileStep cn fs =
      unlinkSync
        (writeFileSync fs (newComponentFilePath cn) (substComponentFile cn c))
        (componentFilePath cn) := by
  unfold componentFileStep componentFileOps
  rw [h]
  rfl

theorem testFileStep_of_none {cn : String} {fs : FS}
    (h : readFileSync fs (testFilePath cn) = none) :
    testFileStep cn fs = fs := by
  unfold testFileStep testFileOps
  rw [h]
  rfl

theorem testFileStep_of_some {cn : String} {fs : FS} {c : String}
    (h : readFileSync fs (testFilePath cn) = some c) :
    testFileStep cn fs =
      unlinkSync
        (writeFileSync fs (newTestFilePath cn) (substUnitRefs cn c))
        (testFilePath cn) := by
  unfold testFileStep testFileOps
  rw [h]
  rfl

theorem indexFileStep_of_none {cn : String} {fs : FS}
    (h : readFileSync fs (indexFilePath cn) = none) :
    indexFileStep cn fs = fs := by
  unfold indexFileStep
  rw [h]

theorem indexFileStep_of_some {cn : String} {fs : FS} {c : String}
    (h : readFileSync fs (indexFilePath cn) = some c) :
    indexFileStep cn fs =
      writeFileSync fs (indexFilePath cn) (substUnitRefs cn c) := by
  unfold indexFileStep
  rw [h]

theorem readFileSync_componentFileStep_other {cn : String} {fs : FS} {q : FsPath}
    (h1 : q ≠ newComponentFilePath cn) (h2 : q ≠ componentFilePath cn) :
    readFileSync (componentFileStep cn fs) q = readFileSync fs q := by
  cases hr : readFileSync fs (componentFilePath cn) with
  | none => rw [componentFileStep_of_none hr]
  | some c =>
    rw [componentFileStep_of_some hr, readFileSync_unlinkSync_other h2,
      readFileSync_writeFileSync_other h1]

theorem existsSync_componentFileStep_false {cn : String} {fs : FS} {d : FsPath}
    (hd : existsSync fs d = false) (hp : ¬ d <+: newComponentFilePath cn) :
    existsSync (componentFileStep cn fs) d = false := by
  cases hr : readFileSync fs (componentFilePath cn) with
  | none =>
    rw [componentFileStep_of_none hr]
    exact hd
  | some c =>
    rw [componentFileStep_of_some hr]
    exact existsSync_unlinkSync_false (existsSync_writeFileSync_false hd hp)

theorem nodupKeys_componentFileStep {cn : String} {fs : FS}
    (h : NodupKeys fs) : NodupKeys (componentFileStep cn fs) := by
  cases hr : readFileSync fs (componentFilePath cn) with
  | none =>
    rw [componentFileStep_of_none hr]
    exact h
  | some c =>
    rw [componentFileStep_of_some hr]
    exact nodupKeys_unlinkSync (nodupKeys_writeFileSync h)

theorem readFileSync_testFileStep_other {cn : String} {fs : FS} {q : FsPath}
    (h1 : q ≠ newTestFilePath cn) (h2 : q ≠ testFilePath cn) :
    readFileSync (testFileStep cn fs) q = readFileSync fs q := by
  cases hr : readFileSync fs (testFilePath cn) with
  | none => rw [testFileStep_of_none hr]
  | some c =>
    rw [testFileStep_of_some hr, readFileSync_unlinkSync_other h2,
      readFileSync_writeFileSync_other h1]

theorem existsSync_testFileStep_false {cn : String} {fs : FS} {d : FsPath}
    (hd : existsSync fs d = false) (hp : ¬ d <+: newTestFilePath cn) :
    existsSync (testFileStep cn fs) d = false := by
  cases hr : readFileSync fs (testFilePath cn) with
  | none =>
    rw [testFileStep_of_none hr]
    exact hd
  | some c =>
    rw [testFileStep_of_some hr]
    exact existsSync_unlinkSync_false (existsSync_writeFileSync_false hd hp)

theorem nodupKeys_testFileStep {cn : String} {fs : FS}
    (h : NodupKeys fs) : NodupKeys (testFileStep cn fs) := by
  cases hr : readFileSync fs (testFilePath cn) with
  | none =>
    rw [testFileStep_of_none hr]
    exact h
  | some c =>
    rw [testFileStep_of_some hr]
    exact nodupKeys_unlinkSync (nodupKeys_writeFileSync h)

theorem readFileSync_indexFileStep_other {cn : String} {fs : FS} {q : FsPath}
    (h1 : q ≠ indexFilePath cn) :
    readFileSync (indexFileStep cn fs) q = readFileSync fs q := by
  cases hr : readFileSync fs (indexFilePath cn) with
  | none => rw [indexFileStep_of_none hr]
  | some c =>
    rw [indexFileStep_of_some hr, readFileSync_writeFileSync_other h1]

theorem existsSync_indexFileStep_false {cn : String} {fs : FS} {d : FsPath}
    (hd : existsSync fs d = false) (hp : ¬ d <+: indexFilePath cn) :
    existsSync (indexFileStep cn fs) d = false := by
  cases hr : readFileSync fs (indexFilePath cn) with
  | none =>
    rw [indexFileStep_of_none hr]
    exact hd
  | some c =>
    rw [indexFileStep_of_some hr]
    exact existsSync_writeFileSync_false hd hp

theorem nodupKeys_indexFileStep {cn : String} {fs : FS}
    (h : NodupKeys fs) : NodupKeys (indexFileStep cn fs) := by
  cases hr : readFileSync fs (indexFilePath cn) with
  | none =>
    rw [indexFileStep_of_none hr]
    exact h
  | some c =>
    rw [indexFileStep_of_some hr]
    exact nodupKeys_writeFileSync h

theorem patchPluginFEStep_of_none {cn : String} {fs : FS}
    (h : readFileSync fs pluginTsPath = none) :
    patchPluginFEStep cn fs = fs := by
  unfold patchPluginFEStep
  rw [h]

theorem patchPluginFEStep_of_some {cn : String} {fs : FS} {c : String}
    (h : readFileSync fs pluginTsPath = some c) :
    patchPluginFEStep cn fs =
      writeFileSync fs pluginTsPath (patchPluginFE cn c) := by
  unfold patchPluginFEStep
  rw [h]

theorem readFileSync_patchPluginFEStep_other {cn : String} {fs : FS} {q : FsPath}
    (h1 : q ≠ pluginTsPath) :
    readFileSync (patchPluginFEStep cn fs) q = readFileSync fs q := by
  cases hr : readFileSync fs pluginTsPath with
  | none => rw [patchPluginFEStep_of_none hr]
  | some c => rw [patchPluginFEStep_of_some hr, readFileSync_writeFileSync_other h1]

theorem existsSync_patchPluginFEStep_false {cn : String} {fs : FS} {d : FsPath}
    (hd : existsSync fs d = false) (hp : ¬ d <+: pluginTsPath) :
    existsSync (patchPluginFEStep cn fs) d = false := by
  cases hr : readFileSync fs pluginTsPath with
  | none =>
    rw [patchPluginFEStep_of_none hr]
    exact hd
  | some c =>
    rw [patchPluginFEStep_of_some hr]
    exact existsSync_writeFileSync_false hd hp

theorem nodupKeys_patchPluginFEStep {cn : String} {fs : FS}
    (h : NodupKeys fs) : NodupKeys (patchPluginFEStep cn fs) := by
  cases hr : readFileSync fs pluginTsPath with
  | none =>
    rw [patchPluginFEStep_of_none hr]
    exact h
  | some c =>
    rw [patchPluginFEStep_of_some hr]
    exact nodupKeys_writeFileSync h

theorem routerStep_of_none {fs : FS}
    (h : readFileSync fs routerTsPath = none) : routerStep fs = fs := by
  unfold routerStep
  rw [h]

theorem routerStep_of_some {fs : FS} {c : String}
    (h : readFileSync fs routerTsPath = some c) :
    routerStep fs = writeFileSync fs routerTsPath simpleRouter := by
  unfold routerStep
  rw [h]

theorem readFileSync_routerStep_other {fs : FS} {q : FsPath}
    (h1 : q ≠ routerTsPath) :
    readFileSync (routerStep fs) q = readFileSync fs q := by
  cases hr : readFileSync fs routerTsPath with
  | none => rw [routerStep_of_none hr]
  | some c => rw [routerStep_of_some hr, readFileSync_writeFileSync_other h1]

theorem existsSync_routerStep_false {fs : FS} {d : FsPath}
    (hd : existsSync fs d = false) (hp : ¬ d <+: routerTsPath) :
    existsSync (routerStep fs) d = false := by
  cases hr : readFileSync fs routerTsPath with
  | none =>
    rw [routerStep_of_none hr]
    exact hd
  | some c =>
    rw [routerStep_of_some hr]
    exact existsSync_writeFileSync_false hd hp

theorem nodupKeys_routerStep {fs : FS} (h : NodupKeys fs) :
    NodupKeys (routerStep fs) := by
  cases hr : readFileSync fs routerTsPath with
  | none =>
    rw [routerStep_of_none hr]
    exact h
  | some c =>
    rw [routerStep_of_some hr]
    exact nodupKeys_writeFileSync h

theorem patchPluginBEStep_of_none {fs : FS}
    (h : readFileSync fs pluginTsPath = none) : patchPluginBEStep fs = fs := by
  unfold patchPluginBEStep
  rw [h]

theorem patchPluginBEStep_of_some {fs : FS} {c : String}
    (h : readFileSync fs pluginTsPath = some c) :
    patchPluginBEStep fs = writeFileSync fs pluginTsPath (patchPluginBE c) := by
  unfold patchPluginBEStep
  rw [h]

theorem readFileSync_patchPluginBEStep_other {fs : FS} {q : FsPath}
    (h1 : q ≠ pluginTsPath) :
    readFileSync (patchPluginBEStep fs) q = readFileSync fs q := by
  cases hr : readFileSync fs pluginTsPath with
  | none => rw [patchPluginBEStep_of_none hr]
  | some c => rw [patchPluginBEStep_of_some hr, readFileSync_writeFileSync_other h1]

theorem existsSync_patchPluginBEStep_false {fs : FS} {d : FsPath}
    (hd : existsSync fs d = false) (hp : ¬ d <+: pluginTsPath) :
    existsSync (patchPluginBEStep fs) d = false := by
  cases hr : readFileSync fs pluginTsPath with
  | none =>
    rw [patchPluginBEStep_of_none hr]
    exact hd
  | some c =>
    rw [patchPluginBEStep_of_some hr]
    exact existsSync_writeFileSync_false hd hp

theorem nodupKeys_patchPluginBEStep {fs : FS} (h : NodupKeys fs) :
    NodupKeys (patchPluginBEStep fs) := by
  cases hr : readFileSync fs pluginTsPath with
  | none =>
    rw [patchPluginBEStep_of_none hr]
    exact h
  | some c =>
    rw [patchPluginBEStep_of_some hr]
    exact nodupKeys_writeFileSync h

/-! ## Disjointness of the concrete paths -/

theorem fetchDir_not_pref_newDir (pid : String) {r : FsPath} :
    ¬ exampleFetchDir <+: (newComponentDir (componentName pid) ++ r) := by
  intro h
  rcases h with ⟨t, ht⟩
  simp [exampleFetchDir, newComponentDir] at ht
  exact componentName_ne_exampleFetch pid ht.1.symm

theorem exCompDir_not_pref_newDir (pid : String) {r : FsPath} :
    ¬ exampleComponentDir <+: (newComponentDir (componentName pid) ++ r) := by
  intro h
  rcases h with ⟨t, ht⟩
  simp [exampleComponentDir, newComponentDir] at ht
  exact componentName_ne_exampleComponent pid ht.1.symm

theorem exCompDir_ne_newDir {pid : String} :
    exampleComponentDir ≠ newComponentDir (componentName pid) := by
  intro h
  simp [exampleComponentDir, newComponentDir] at h
  exact componentName_ne_exampleComponent pid h.symm

theorem fetchDir_not_pref_pluginTs : ¬ exampleFetchDir <+: pluginTsPath := by
  intro h
  rcases h with ⟨t, ht⟩
  simp [exampleFetchDir, pluginTsPath] at ht

theorem exCompDir_not_pref_pluginTs : ¬ exampleComponentDir <+: pluginTsPath := by
  intro h
  rcases h with ⟨t, ht⟩
  simp [exampleComponentDir, pluginTsPath] at ht

theorem pkg_not_pref_of_head {d : FsPath} {s : String} {r : FsPath}
    (hd : d = s :: r) (hs : s ≠ "package.json") :
    ¬ d <+: packageJsonPath := by
  intro h
  rcases h with ⟨t, ht⟩
  rw [hd] at ht
  simp [packageJsonPath] at ht
  exact hs ht.1

/-! ## Decomposing a run -/

theorem renameBlock_cases {cn : String} {fs fsR : FS}
    (h : renameBlock cn fs = (fsR, none)) :
    (existsSync fs exampleComponentDir = false ∧ fsR = fs) ∨
    (∃ fs1, renameSync fs exampleComponentDir (newComponentDir cn) =
        Except.ok fs1 ∧
      fsR = indexFileStep cn (testFileStep cn (componentFileStep cn fs1))) := by
  unfold renameBlock at h
  by_cases hg : existsSync fs exampleComponentDir
  · rw [if_pos hg] at h
    cases hr : renameSync fs exampleComponentDir (newComponentDir cn) with
    | error e =>
      rw [hr] at h
      simp at h
    | ok fs1 =>
      rw [hr] at h
      simp only [Prod.mk.injEq] at h
      right
      exact ⟨fs1, rfl, h.1.symm⟩
  · rw [if_neg hg] at h
    simp only [Prod.mk.injEq] at h
    left
    exact ⟨by simpa using hg, h.1.symm⟩

theorem renameBlock_skip {cn : String} {fs : FS}
    (h : existsSync fs exampleComponentDir = false) :
    renameBlock cn fs = (fs, none) := by
  unfold renameBlock
  rw [h]
  rfl

theorem mutateFE_ok {cn : String} {fs fs' : FS}
    (h : mutateFE cn fs = (fs', none)) :
    ∃ fsR, renameBlock cn ((removeStep fs exampleFetchDir).1) = (fsR, none) ∧
      fs' = removeFileStep
        ((removeStep (patchPluginFEStep cn fsR) devDirPath).1)
        pluginTestTsPath := by
  simp only [mutateFE] at h
  cases hr : renameBlock cn ((removeStep fs exampleFetchDir).1) with
  | mk fsR oe =>
    cases oe with
    | some e =>
      rw [hr] at h
      simp at h
    | none =>
      rw [hr] at h
      simp only [Prod.mk.injEq] at h
      exact ⟨fsR, rfl, h.1.symm⟩

theorem cleanupScaffolding_valid {parse : String → Option (Option String)}
    {fs : FS} {m pid : String}
    (hm : readFileSync fs packageJsonPath = some m)
    (hp : parse m = some (some pid)) (hpe : pid.isEmpty = false) :
    cleanupScaffolding parse fs = mutateFE (componentName pid) fs := by
  unfold cleanupScaffolding
  rw [if_neg (by rw [readFileSync_ne_nil hm]; simp)]
  simp only [hm, hp, hpe]
  rw [if_neg (by simp)]

theorem cleanupScaffoldingBackend_valid {parse : String → Option (Option String)}
    {fs : FS} {m pid : String}
    (hm : readFileSync fs packageJsonPath = some m)
    (hp : parse m = some (some pid)) (hpe : pid.isEmpty = false) :
    cleanupScaffoldingBackend parse fs = mutateBE fs := by
  unfold cleanupScaffoldingBackend
  rw [if_neg (by rw [readFileSync_ne_nil hm]; simp)]
  simp only [hm, hp, hpe]
  rw [if_neg (by simp)]

/-! ## What a successful first run guarantees -/

theorem mutateFE_post {pid : String} {fs fs' : FS} (hnd : NodupKeys fs)
    (h : mutateFE (componentName pid) fs = (fs', none)) :
    NodupKeys fs' ∧
    existsSync fs' exampleFetchDir = false ∧
    existsSync fs' exampleComponentDir = false ∧
    existsSync fs' devDirPath = false ∧
    readFileSync fs' pluginTestTsPath = none ∧
    readFileSync fs' packageJsonPath = readFileSync fs packageJsonPath := by
  obtain ⟨fsR, hR, hfs'⟩ := mutateFE_ok h
  have hA_nd : NodupKeys ((removeStep fs exampleFetchDir).1) :=
    nodupKeys_removeStep hnd
  have hA_fetch : existsSync ((removeStep fs exampleFetchDir).1)
      exampleFetchDir = false := existsSync_removeStep_self
  have hA_pkg : readFileSync ((removeStep fs exampleFetchDir).1)
      packageJsonPath = readFileSync fs packageJsonPath :=
    readFileSync_removeStep_other (pkg_not_pref_of_head rfl (by decide))
  have hRfacts : NodupKeys fsR ∧ existsSync fsR exampleFetchDir = false ∧
      existsSync fsR exampleComponentDir = false ∧
      readFileSync fsR packageJsonPath = readFileSync fs packageJsonPath := by
    rcases renameBlock_cases hR with ⟨hg, rfl⟩ | ⟨fs1, hr, rfl⟩
    · exact ⟨hA_nd, hA_fetch, hg, hA_pkg⟩
    · have h1_nd : NodupKeys fs1 := nodupKeys_renameSync hA_nd hr
      have h1_fetch : existsSync fs1 exampleFetchDir = false := by
        apply existsSync_renameSync_false _ _ hA_fetch hr
        · simp [exampleFetchDir, newComponentDir]
        · have := fetchDir_not_pref_newDir pid (r := [])
          rwa [List.append_nil] at this
      have h1_ec : existsSync fs1 exampleComponentDir = false := by
        apply existsSync_renameSync_old _ exCompDir_ne_newDir hr
        simp [exampleComponentDir, newComponentDir]
      have h1_pkg : readFileSync fs1 packageJsonPath =
          readFileSync fs packageJsonPath := by
        rw [readFileSync_renameSync_outside
          (pkg_not_pref_of_head rfl (by decide))
          (pkg_not_pref_of_head rfl (by decide)) hr]
        exact hA_pkg
      refine ⟨?_, ?_, ?_, ?_⟩
      · exact nodupKeys_indexFileStep
          (nodupKeys_testFileStep (nodupKeys_componentFileStep h1_nd))
      · exact existsSync_indexFileStep_false
          (existsSync_testFileStep_false
            (existsSync_componentFileStep_false h1_fetch
              (fetchDir_not_pref_newDir pid))
            (fetchDir_not_pref_newDir pid))
          (fetchDir_not_pref_newDir pid)
      · exact existsSync_indexFileStep_false
          (existsSync_testFileStep_false
            (existsSync_componentFileStep_false h1_ec
              (exCompDir_not_pref_newDir pid))
            (exCompDir_not_pref_newDir pid))
          (exCompDir_not_pref_newDir pid)
      · rw [readFileSync_indexFileStep_other
            (by simp [packageJsonPath, indexFilePath, newComponentDir]),
          readFileSync_testFileStep_other
            (by simp [packageJsonPath, newTestFilePath, newComponentDir])
            (by simp [packageJsonPath, testFilePath, newComponentDir]),
          readFileSync_componentFileStep_other
            (by simp [packageJsonPath, newComponentFilePath, newComponentDir])
            (by simp [packageJsonPath, componentFilePath, newComponentDir])]
        exact h1_pkg
  obtain ⟨hRnd, hRfetch, hRec, hRpkg⟩ := hRfacts
  have h2_nd : NodupKeys (patchPluginFEStep (componentName pid) fsR) :=
    nodupKeys_patchPluginFEStep hRnd
  have h2_fetch : existsSync (patchPluginFEStep (componentName pid) fsR)
      exampleFetchDir = false :=
    existsSync_patchPluginFEStep_false hRfetch fetchDir_not_pref_pluginTs
  have h2_ec : existsSync (patchPluginFEStep (componentName pid) fsR)
      exampleComponentDir = false :=
    existsSync_patchPluginFEStep_false hRec exCompDir_not_pref_pluginTs
  have h2_pkg : readFileSync (patchPluginFEStep (componentName pid) fsR)
      packageJsonPath = readFileSync fs packageJsonPath := by
    rw [readFileSync_patchPluginFEStep_other
      (by simp [packageJsonPath, pluginTsPath])]
    exact hRpkg
  have h3_nd := nodupKeys_removeStep (t := devDirPath) h2_nd
  have h3_fetch := existsSync_removeStep_false (t := devDirPath) h2_fetch
  have h3_ec := existsSync_removeStep_false (t := devDirPath) h2_ec
  have h3_dev : existsSync
      ((removeStep (patchPluginFEStep (componentName pid) fsR) devDirPath).1)
      devDirPath = false := existsSync_removeStep_self
  have h3_pkg : readFileSync
      ((removeStep (patchPluginFEStep (componentName pid) fsR) devDirPath).1)
      packageJsonPath = readFileSync fs packageJsonPath := by
    rw [readFileSync_removeStep_other (t := devDirPath)
      (pkg_not_pref_of_head rfl (by decide))]
    exact h2_pkg
  rw [hfs']
  refine ⟨nodupKeys_removeFileStep h3_nd,
    existsSync_removeFileStep_false h3_fetch,
    existsSync_removeFileStep_false h3_ec,
    existsSync_removeFileStep_false h3_dev,
    readFileSync_removeFileStep_self, ?_⟩
  rw [readFileSync_removeFileStep_other
    (by simp [packageJsonPath, pluginTestTsPath])]
  exact h3_pkg

/-- On a tree where every frontend target is already gone and the wiring-file
patch is a fixed point, the frontend mutation steps change nothing. -/
theorem mutateFE_idem {cn : String} {fs' : FS} (hnd : NodupKeys fs')
    (hfetch : existsSync fs' exampleFetchDir = false)
    (hec : existsSync fs' exampleComponentDir = false)
    (hdev : existsSync fs' devDirPath = false)
    (hpt : readFileSync fs' pluginTestTsPath = none)
    (hfix : ∀ c, readFileSync fs' pluginTsPath = some c →
      patchPluginFE cn c = c) :
    mutateFE cn fs' = (fs', none) := by
  have e1 : (removeStep fs' exampleFetchDir).1 = fs' := by
    rw [removeStep_absent hfetch]
  have e2 : renameBlock cn fs' = (fs', none) := renameBlock_skip hec
  have e3 : patchPluginFEStep cn fs' = fs' := by
    cases hr : readFileSync fs' pluginTsPath with
    | none => exact patchPluginFEStep_of_none hr
    | some c =>
      rw [patchPluginFEStep_of_some hr, hfix c hr]
      exact writeFileSync_same hnd hr
  have e4 : (removeStep fs' devDirPath).1 = fs' := by
    rw [removeStep_absent hdev]
  have e5 : removeFileStep fs' pluginTestTsPath = fs' := removeFileStep_absent hpt
  simp only [mutateFE, e1, e2, e3, e4, e5]

theorem routerContent_cast {fs1 fs2 : FS}
    (hstep : readFileSync fs2 routerTsPath = readFileSync fs1 routerTsPath)
    (h : readFileSync fs1 routerTsPath = none ∨
      readFileSync fs1 routerTsPath = some simpleRouter) :
    readFileSync fs2 routerTsPath = none ∨
      readFileSync fs2 routerTsPath = some simpleRouter := by
  rw [hstep]
  exact h

theorem mutateBE_eq (fs : FS) : mutateBE fs =
    ((removeStep
        (removeFileStep
          (removeFileStep
            (patchPluginBEStep (routerStep ((removeStep fs servicesDirPath).1)))
            pluginTestTsPath)
          routerTestTsPath)
        devDirPath).1, none) := rfl

theorem mutateBE_post {fs fs' : FS} (hnd : NodupKeys fs)
    (h : mutateBE fs = (fs', none)) :
    NodupKeys fs' ∧
    existsSync fs' servicesDirPath = false ∧
    (readFileSync fs' routerTsPath = none ∨
      readFileSync fs' routerTsPath = some simpleRouter) ∧
    readFileSync fs' pluginTestTsPath = none ∧
    readFileSync fs' routerTestTsPath = none ∧
    existsSync fs' devDirPath = false ∧
    readFileSync fs' packageJsonPath = readFileSync fs packageJsonPath := by
  have heq := mutateBE_eq fs
  rw [h] at heq
  have hfs' := (Prod.mk.injEq _ _ _ _ ▸ heq).1
  have h1_nd : NodupKeys ((removeStep fs servicesDirPath).1) :=
    nodupKeys_removeStep hnd
  have h1_serv : existsSync ((removeStep fs servicesDirPath).1)
      servicesDirPath = false := existsSync_removeStep_self
  have h1_pkg : readFileSync ((removeStep fs servicesDirPath).1)
      packageJsonPath = readFileSync fs packageJsonPath :=
    readFileSync_removeStep_other (t := servicesDirPath)
      (pkg_not_pref_of_head rfl (by decide))
  have h2_nd : NodupKeys (routerStep ((removeStep fs servicesDirPath).1)) :=
    nodupKeys_routerStep h1_nd
  have h2_serv := existsSync_routerStep_false h1_serv (by decide)
  have h2_router : readFileSync (routerStep ((removeStep fs servicesDirPath).1))
      routerTsPath = none ∨
      readFileSync (routerStep ((removeStep fs servicesDirPath).1))
        routerTsPath = some simpleRouter := by
    cases hr : readFileSync ((removeStep fs servicesDirPath).1) routerTsPath with
    | none =>
      left
      rw [routerStep_of_none hr]
      exact hr
    | some c =>
      right
      rw [routerStep_of_some hr]
      exact readFileSync_writeFileSync_self
  have h2_pkg : readFileSync (routerStep ((removeStep fs servicesDirPath).1))
      packageJsonPath = readFileSync fs packageJsonPath := by
    rw [readFileSync_routerStep_other (by decide)]
    exact h1_pkg
  have h3_nd := nodupKeys_patchPluginBEStep h2_nd
  have h3_serv := existsSync_patchPluginBEStep_false h2_serv (by decide)
  have h3_router := routerContent_cast
    (readFileSync_patchPluginBEStep_other (by decide)) h2_router
  have h3_pkg : readFileSync
      (patchPluginBEStep (routerStep ((removeStep fs servicesDirPath).1)))
      packageJsonPath = readFileSync fs packageJsonPath := by
    rw [readFileSync_patchPluginBEStep_other (by decide)]
    exact h2_pkg
  have h4_nd := nodupKeys_removeFileStep (p := pluginTestTsPath) h3_nd
  have h4_serv := existsSync_removeFileStep_false (p := pluginTestTsPath) h3_serv
  have h4_router := routerContent_cast
    (readFileSync_removeFileStep_other (p := pluginTestTsPath) (by decide))
    h3_router
  have h4_pt : readFileSync
      (removeFileStep
        (patchPluginBEStep (routerStep ((removeStep fs servicesDirPath).1)))
        pluginTestTsPath) pluginTestTsPath = none :=
    readFileSync_removeFileStep_self
  have h4_pkg : readFileSync
      (removeFileStep
        (patchPluginBEStep (routerStep ((removeStep fs servicesDirPath).1)))
        pluginTestTsPath) packageJsonPath = readFileSync fs packageJsonPath := by
    rw [readFileSync_removeFileStep_other (by decide)]
    exact h3_pkg
  have h5_nd := nodupKeys_removeFileStep (p := routerTestTsPath) h4_nd
  have h5_serv := existsSync_removeFileStep_false (p := routerTestTsPath) h4_serv
  have h5_router := routerContent_cast
    (readFileSync_removeFileStep_other (p := routerTestTsPath) (by decide))
    h4_router
  have h5_pt : readFileSync
      (removeFileStep (removeFileStep
        (patchPluginBEStep (routerStep ((removeStep fs servicesDirPath).1)))
        pluginTestTsPath) routerTestTsPath) pluginTestTsPath = none := by
    rw [readFileSync_removeFileStep_other (by decide)]
    exact h4_pt
  have h5_rt : readFileSync
      (removeFileStep (removeFileStep
        (patchPluginBEStep (routerStep ((removeStep fs servicesDirPath).1)))
        pluginTestTsPath) routerTestTsPath) routerTestTsPath = none :=
    readFileSync_removeFileStep_self
  have h5_pkg : readFileSync
      (removeFileStep (removeFileStep
        (patchPluginBEStep (routerStep ((removeStep fs servicesDirPath).1)))
        pluginTestTsPath) routerTestTsPath) packageJsonPath =
      readFileSync fs packageJsonPath := by
    rw [readFileSync_removeFileStep_other (by decide)]
    exact h4_pkg
  rw [hfs']
  refine ⟨nodupKeys_removeStep h5_nd,
    existsSync_removeStep_false h5_serv, ?_, ?_, ?_,
    existsSync_removeStep_self, ?_⟩
  · exact routerContent_cast
      (readFileSync_removeStep_other (t := devDirPath) (by decide)) h5_router
  · rw [readFileSync_removeStep_other (t := devDirPath) (by decide)]
    exact h5_pt
  · rw [readFileSync_removeStep_other (t := devDirPath) (by decide)]
    exact h5_rt
  · rw [readFileSync_removeStep_other (t := devDirPath)
      (pkg_not_pref_of_head rfl (by decide))]
    exact h5_pkg

/-- On a tree where every backend target is already gone, the router already
carries the fixed content and the wiring-file patch is a fixed point, the
backend mutation steps change nothing. -/
theorem mutateBE_idem {fs' : FS} (hnd : NodupKeys fs')
    (hserv : existsSync fs' servicesDirPath = false)
    (hrouter : readFileSync fs' routerTsPath = none ∨
      readFileSync fs' routerTsPath = some simpleRouter)
    (hpt : readFileSync fs' pluginTestTsPath = none)
    (hrt : readFileSync fs' routerTestTsPath = none)
    (hdev : existsSync fs' devDirPath = false)
    (hfix : ∀ c, readFileSync fs' pluginTsPath = some c → patchPluginBE c = c) :
    mutateBE fs' = (fs', none) := by
  have e1 : (removeStep fs' servicesDirPath).1 = fs' := by
    rw [removeStep_absent hserv]
  have e2 : routerStep fs' = fs' := by
    cases hrouter with
    | inl hh => exact routerStep_of_none hh
    | inr hh =>
      rw [routerStep_of_some hh]
      exact writeFileSync_same hnd hh
  have e3 : patchPluginBEStep fs' = fs' := by
    cases hr : readFileSync fs' pluginTsPath with
    | none => exact patchPluginBEStep_of_none hr
    | some c =>
      rw [patchPluginBEStep_of_some hr, hfix c hr]
      exact writeFileSync_same hnd hr
  have e4 : removeFileStep fs' pluginTestTsPath = fs' := removeFileStep_absent hpt
  have e5 : removeFileStep fs' routerTestTsPath = fs' := removeFileStep_absent hrt
  have e6 : (removeStep fs' devDirPath).1 = fs' := by
    rw [removeStep_absent hdev]
  simp only [mutateBE, e1, e2, e3, e4, e5, e6]

/-! ## The manifest is never touched -/

theorem readFileSync_renameBlock_pkg {cn : String} {fs fsR : FS}
    {oe : Option Err} (h : renameBlock cn fs = (fsR, oe)) :
    readFileSync fsR packageJsonPath = readFileSync fs packageJsonPath := by
  unfold renameBlock at h
  by_cases hg : existsSync fs exampleComponentDir
  · rw [if_pos hg] at h
    cases hrs : renameSync fs exampleComponentDir (newComponentDir cn) with
    | error e =>
      rw [hrs] at h
      simp only [Prod.mk.injEq] at h
      rw [← h.1]
    | ok fs1 =>
      rw [hrs] at h
      simp only [Prod.mk.injEq] at h
      rw [← h.1]
      rw [readFileSync_indexFileStep_other
          (by simp [packageJsonPath, indexFilePath, newComponentDir]),
        readFileSync_testFileStep_other
          (by simp [packageJsonPath, newTestFilePath, newComponentDir])
          (by simp [packageJsonPath, testFilePath, newComponentDir]),
        readFileSync_componentFileStep_other
          (by simp [packageJsonPath, newComponentFilePath, newComponentDir])
          (by simp [packageJsonPath, componentFilePath, newComponentDir])]
      exact readFileSync_renameSync_outside
        (pkg_not_pref_of_head rfl (by decide))
        (pkg_not_pref_of_head rfl (by decide)) hrs
  · rw [if_neg hg] at h
    simp only [Prod.mk.injEq] at h
    rw [← h.1]

theorem mutateFE_of_renameBlock_error {cn : String} {fs fsR : FS} {e : Err}
    (hr : renameBlock cn ((removeStep fs exampleFetchDir).1) = (fsR, some e)) :
    mutateFE cn fs = (fsR, some e) := by
  simp only [mutateFE, hr]

theorem mutateFE_of_renameBlock_ok {cn : String} {fs fsR : FS}
    (hr : renameBlock cn ((removeStep fs exampleFetchDir).1) = (fsR, none)) :
    mutateFE cn fs =
      (removeFileStep ((removeStep (patchPluginFEStep cn fsR) devDirPath).1)
        pluginTestTsPath, none) := by
  simp only [mutateFE, hr]

theorem readFileSync_mutateFE_pkg {cn : String} {fs : FS} :
    readFileSync (mutateFE cn fs).1 packageJsonPath =
      readFileSync fs packageJsonPath := by
  have hA_pkg : readFileSync ((removeStep fs exampleFetchDir).1)
      packageJsonPath = readFileSync fs packageJsonPath :=
    readFileSync_removeStep_other (t := exampleFetchDir)
      (pkg_not_pref_of_head rfl (by decide))
  cases hr : renameBlock cn ((removeStep fs exampleFetchDir).1) with
  | mk fsR oe =>
    have hRpkg := readFileSync_renameBlock_pkg hr
    cases oe with
    | some e =>
      rw [mutateFE_of_renameBlock_error hr]
      rw [hRpkg]
      exact hA_pkg
    | none =>
      rw [mutateFE_of_renameBlock_ok hr]
      show readFileSync
        (removeFileStep ((removeStep (patchPluginFEStep cn fsR) devDirPath).1)
          pluginTestTsPath) packageJsonPath = _
      rw [readFileSync_removeFileStep_other
          (by simp [packageJsonPath, pluginTestTsPath]),
        readFileSync_removeStep_other (t := devDirPath)
          (pkg_not_pref_of_head rfl (by decide)),
        readFileSync_patchPluginFEStep_other
          (by simp [packageJsonPath, pluginTsPath])]
      rw [hRpkg]
      exact hA_pkg

theorem readFileSync_mutateBE_pkg {fs : FS} :
    readFileSync (mutateBE fs).1 packageJsonPath =
      readFileSync fs packageJsonPath := by
  rw [mutateBE_eq]
  show readFileSync
    ((removeStep
      (removeFileStep
        (removeFileStep
          (patchPluginBEStep (routerStep ((removeStep fs servicesDirPath).1)))
          pluginTestTsPath)
        routerTestTsPath)
      devDirPath).1) packageJsonPath = _
  rw [readFileSync_removeStep_other (t := devDirPath)
      (pkg_not_pref_of_head rfl (by decide)),
    readFileSync_removeFileStep_other (by decide),
    readFileSync_removeFileStep_other (by decide),
    readFileSync_patchPluginBEStep_other (by decide),
    readFileSync_routerStep_other (by decide),
    readFileSync_removeStep_other (t := servicesDirPath)
      (pkg_not_pref_of_head rfl (by decide))]

/-- JavaScript truthiness of the extracted identifier: missing or empty is
falsy. -/
def idFalsy : Option String → Bool
  | none => true
  | some s => s.isEmpty

/-! ## Validation failures leave the tree untouched -/

theorem cleanupScaffolding_no_manifest (parse : String → Option (Option String))
    {fs : FS} (hm : readFileSync fs packageJsonPath = none) :
    cleanupScaffolding parse fs = (fs, some Err.missingDir) ∨
    cleanupScaffolding parse fs = (fs, some Err.missingManifest) := by
  unfold cleanupScaffolding
  by_cases h0 : fs.isEmpty
  · left
    rw [if_pos h0]
  · right
    rw [if_neg h0]
    simp only [hm]

theorem cleanupScaffoldingBackend_no_manifest
    (parse : String → Option (Option String))
    {fs : FS} (hm : readFileSync fs packageJsonPath = none) :
    cleanupScaffoldingBackend parse fs = (fs, some Err.missingDir) ∨
    cleanupScaffoldingBackend parse fs = (fs, some Err.missingManifest) := by
  unfold cleanupScaffoldingBackend
  by_cases h0 : fs.isEmpty
  · left
    rw [if_pos h0]
  · right
    rw [if_neg h0]
    simp only [hm]

theorem cleanupScaffolding_missing_id {parse : String → Option (Option String)}
    {fs : FS} {m : String} {idOpt : Option String}
    (hm : readFileSync fs packageJsonPath = some m)
    (hp : parse m = some idOpt)
    (hid : idFalsy idOpt = true) :
    cleanupScaffolding parse fs = (fs, some Err.missingId) := by
  have h0 : fs.isEmpty = false := readFileSync_ne_nil hm
  unfold cleanupScaffolding
  rw [if_neg (by rw [h0]; simp)]
  cases idOpt with
  | none => simp only [hm, hp]
  | some s =>
    simp only [idFalsy] at hid
    simp only [hm, hp, hid]
    simp

theorem cleanupScaffoldingBackend_missing_id
    {parse : String → Option (Option String)}
    {fs : FS} {m : String} {idOpt : Option String}
    (hm : readFileSync fs packageJsonPath = some m)
    (hp : parse m = some idOpt)
    (hid : idFalsy idOpt = true) :
    cleanupScaffoldingBackend parse fs = (fs, some Err.missingId) := by
  have h0 : fs.isEmpty = false := readFileSync_ne_nil hm
  unfold cleanupScaffoldingBackend
  rw [if_neg (by rw [h0]; simp)]
  cases idOpt with
  | none => simp only [hm, hp]
  | some s =>
    simp only [idFalsy] at hid
    simp only [hm, hp, hid]
    simp

/-! ## Path helpers for the rename sub-steps -/

theorem dir_file_ne {d : FsPath} {a b : String} (h : a ≠ b) :
    d ++ [a] ≠ d ++ [b] := by
  intro hh
  have h2 := List.append_cancel_left hh
  simp at h2
  exact h h2

theorem newCompFile_ne_compFile (pid : String) :
    newComponentFilePath (componentName pid) ≠
      componentFilePath (componentName pid) :=
  dir_file_ne (componentName_tsx_ne pid)

theorem newTestFile_ne_testFile (pid : String) :
    newTestFilePath (componentName pid) ≠ testFilePath (componentName pid) :=
  dir_file_ne (componentName_test_tsx_ne pid)

theorem newTestFile_ne_indexFile (pid : String) :
    newTestFilePath (componentName pid) ≠ indexFilePath (componentName pid) :=
  dir_file_ne (componentName_test_tsx_ne_index pid)

theorem testFile_ne_indexFile (cn : String) :
    testFilePath cn ≠ indexFilePath cn :=
  dir_file_ne (by decide)

/-! ## Concrete packages used by the witnesses and counterexamples -/

/-- A manifest whose `backstage.pluginId` is `my-service`. -/
def manifestMS : String := "\x7b\"backstage\": \x7b\"pluginId\": \"my-service\"\x7d\x7d"

/-- A manifest whose `backstage.pluginId` is `example-component`. -/
def manifestCE : String :=
  "\x7b\"backstage\": \x7b\"pluginId\": \"example-component\"\x7d\x7d"

/-- A manifest whose `backstage.pluginId` is `example`. -/
def manifestEX : String := "\x7b\"backstage\": \x7b\"pluginId\": \"example\"\x7d\x7d"

/-- A manifest that parses but has no `backstage.pluginId`. -/
def manifestNoId : String := "\x7b\"name\": \"something\"\x7d"

/-- The behaviour of `JSON.parse(...).backstage?.pluginId` on the manifest
fixtures above (and a parse error on anything else). -/
def parseFix (s : String) : Option (Option String) :=
  if s = manifestMS then some (some "my-service")
  else if s = manifestCE then some (some "example-component")
  else if s = manifestEX then some (some "example")
  else if s = manifestNoId then some none
  else none

/-- The scaffolded `ExampleComponent.tsx` content. -/
def compContent : String := "import \x7b Grid \x7d from '@material-ui/core';\nimport \x7b ExampleFetchComponent \x7d from '../ExampleFetchComponent';\n\nexport const ExampleComponent = () => (\n  <Grid container>\n    <Grid item>\n      <ExampleFetchComponent />\n    </Grid>\n  </Grid>\n);\n"

/-- The scaffolded `ExampleComponent.test.tsx` content. -/
def testContent : String := "import \x7b render \x7d from '@testing-library/react';\nimport \x7b ExampleComponent \x7d from './ExampleComponent';\n\ndescribe('ExampleComponent', () => \x7b\n  it('renders', () => \x7b\n    render(<ExampleComponent />);\n  \x7d);\n\x7d);\n"

/-- The scaffolded `index.ts` content. -/
def idxContent : String :=
  "export \x7b ExampleComponent \x7d from './ExampleComponent';\n"

/-- The scaffolded `plugin.ts` content. -/
def pluginContent : String := "import \x7b createPlugin \x7d from '@backstage/core-plugin-api';\n\nexport const examplePlugin = createPlugin(\x7b\n  id: 'example',\n\x7d);\n\nexport const ExamplePage = examplePlugin.provide(\n  createRoutableExtension(\x7b\n    name: 'ExamplePage',\n    component: () =>\n      import('./components/ExampleComponent').then(m => m.ExampleComponent),\n  \x7d),\n);\n"

/-- A freshly scaffolded frontend package for `my-service`. -/
def scaffoldPkg : FS :=
  [(packageJsonPath, manifestMS),
   (["src", "components", "ExampleComponent", "ExampleComponent.tsx"],
     compContent),
   (["src", "components", "ExampleComponent", "ExampleComponent.test.tsx"],
     testContent),
   (["src", "components", "ExampleComponent", "index.ts"], idxContent),
   (["src", "components", "ExampleFetchComponent", "ExampleFetchComponent.tsx"],
     "export const ExampleFetchComponent = () => null;\n"),
   (["src", "plugin.ts"], pluginContent),
   (["src", "plugin.test.ts"], "test of plugin with ExampleComponent\n"),
   (["dev", "index.tsx"], "import \x7b ExampleComponent \x7d from '../src';\n")]

/-- The scaffolded package plus one extra source file that merely mentions
the placeholder name. -/
def notesPkg : FS :=
  scaffoldPkg ++ [(["src", "notes.ts"], "// see ExampleComponent docs\n")]

/-- The component file produced by a run on `scaffoldPkg`. -/
def cleanCompContent : String := "import \x7b Grid \x7d from '@material-ui/core';\n\nexport const MyServicePage = () => (\n  <Grid container></Grid>\n);\n"

/-- A package whose identifier derives to `ExampleComponentPage`, which makes
the `m\.ExampleComponent` pattern fire again on a second run. -/
def pkgCE : FS :=
  [(packageJsonPath, manifestCE),
   (["src", "plugin.ts"],
     "const p = () => import('./components/ExampleComponent').then(m => m.ExampleComponent);\n")]

/-- A small frontend package on which a run is idempotent. -/
def pkgFE1 : FS :=
  [(packageJsonPath, manifestMS),
   (["src", "plugin.ts"], "export const nothing = 1;\n")]

/-- A freshly scaffolded backend package for `example`. -/
def bePkg : FS :=
  [(packageJsonPath, manifestEX),
   (["src", "services", "TodoListService.ts"], "todo service\n"),
   (["src", "router.ts"],
     "import express from 'express';\nexport const old = 1;\n"),
   (["src", "plugin.ts"], "import \x7b todoListServiceRef \x7d from './services/TodoListService';\n\ndeps: \x7b\n  httpAuth: coreServices.httpAuth,\n  todoList: todoListServiceRef,\n\x7d,\nasync init(\x7b httpAuth, todoList \x7d) \x7b\n  const router = await createRouter(\x7b\n    httpAuth,\n  \x7d);\n\x7d\n"),
   (["src", "plugin.test.ts"], "t1\n"),
   (["src", "router.test.ts"], "t2\n"),
   (["dev", "index.ts"], "dev\n")]

/-- The `plugin.ts` content after one backend run on `bePkg`. -/
def bePatchedPlugin : String := "\ndeps: \x7b\n  httpAuth: coreServices.httpAuth,\x7d,\nasync init(\x7b httpAuth\x7d) \x7b\n  const router = await createRouter(\x7b httpAuth \x7d);\n\x7d\n"

/-- A directory already renamed, with test and index files but no main
component file. -/
def wrenamed : FS :=
  [(packageJsonPath, manifestMS),
   (testFilePath (componentName "my-service"), "ExampleComponent tested\n"),
   (indexFilePath (componentName "my-service"), idxContent)]

/-- The same package before the rename. -/
def wpre : FS :=
  [(packageJsonPath, manifestMS),
   (["src", "components", "ExampleComponent", "ExampleComponent.test.tsx"],
     "ExampleComponent tested\n"),
   (["src", "components", "ExampleComponent", "index.ts"], idxContent)]

/-- A directory (already renamed) holding a component file and a test file,
for exercising the write-before-delete order. -/
def wfs : FS :=
  [(componentFilePath (componentName "my-service"),
     "export const ExampleComponent = 1;\n"),
   (testFilePath (componentName "my-service"), "ExampleComponent tested\n")]

/-! ## The claims -/

/-- C4: the derived UI component name is a pure function of the plugin id:
split on the dash, capitalize each segment, concatenate and append `Page`;
`my-service` yields `MyServicePage`, `data-ingest` yields `DataIngestPage`,
and equal identifiers always yield equal component names. -/
theorem componentName_spec :
    componentName "my-service" = "MyServicePage" ∧
    componentName "data-ingest" = "DataIngestPage" ∧
    ∀ a b : String, a = b → componentName a = componentName b := by
  refine ⟨by decide, by decide, ?_⟩
  intro a b h
  rw [h]

/-- Witness for C4 at the concrete identifier `my-service`. -/
theorem componentName_spec_witness :
    "my-service" = "my-service" ∧
    componentName "my-service" = componentName "my-service" :=
  ⟨rfl, componentName_spec.2.2 "my-service" "my-service" rfl⟩

/-- C2: a package without a manifest, or whose manifest parses to a missing
or empty identifier, makes both pipeline variants fail with no filesystem
mutation at all. -/
theorem validation_gate :
    (∀ (parse : String → Option (Option String)) (fs : FS),
      readFileSync fs packageJsonPath = none →
        (cleanupScaffolding parse fs).1 = fs ∧
        (cleanupScaffolding parse fs).2.isSome = true ∧
        (cleanupScaffoldingBackend parse fs).1 = fs ∧
        (cleanupScaffoldingBackend parse fs).2.isSome = true) ∧
    (∀ (parse : String → Option (Option String)) (fs : FS) (m : String)
        (idOpt : Option String),
      readFileSync fs packageJsonPath = some m →
      parse m = some idOpt →
      idFalsy idOpt = true →
        (cleanupScaffolding parse fs).1 = fs ∧
        (cleanupScaffolding parse fs).2 = some Err.missingId ∧
        (cleanupScaffoldingBackend parse fs).1 = fs ∧
        (cleanupScaffoldingBackend parse fs).2 = some Err.missingId) := by
  constructor
  · intro parse fs hm
    rcases cleanupScaffolding_no_manifest parse hm with h | h <;>
      rcases cleanupScaffoldingBackend_no_manifest parse hm
        with h2 | h2 <;>
      rw [h, h2] <;> exact ⟨rfl, rfl, rfl, rfl⟩
  · intro parse fs m idOpt hm hp hid
    rw [cleanupScaffolding_missing_id hm hp hid,
      cleanupScaffoldingBackend_missing_id hm hp hid]
    exact ⟨rfl, rfl, rfl, rfl⟩

/-- Witness for C2: a package with only a source file (no manifest) and a
package whose manifest lacks the identifier. -/
theorem validation_gate_witness :
    (cleanupScaffolding parseFix [(["src", "only.ts"], "x")]).1 =
      [(["src", "only.ts"], "x")] ∧
    (cleanupScaffoldingBackend parseFix [(["src", "only.ts"], "x")]).2.isSome =
      true ∧
    (cleanupScaffolding parseFix [(packageJsonPath, manifestNoId)]).1 =
      [(packageJsonPath, manifestNoId)] ∧
    (cleanupScaffoldingBackend parseFix [(packageJsonPath, manifestNoId)]).2 =
      some Err.missingId :=
  ⟨(validation_gate.1 parseFix _ (by decide)).1,
   (validation_gate.1 parseFix _ (by decide)).2.2.2,
   (validation_gate.2 parseFix _ manifestNoId none (by decide) (by decide)
      (by decide)).1,
   (validation_gate.2 parseFix _ manifestNoId none (by decide) (by decide)
      (by decide)).2.2.2⟩

/-- C5 counterexample: the test/index substitution is a plain global
substring replacement, so it rewrites `ExampleComponentWrapper` too —
the claim that a longer identifier embedding the placeholder name is left
unchanged is false. -/
theorem substUnitRefs_wrapper_changed :
    substUnitRefs "MyServicePage" "const ExampleComponentWrapper = 1;" ≠
      "const ExampleComponentWrapper = 1;" := by decide

/-- C5 (amended): the substitution replaces every occurrence of the literal
`ExampleComponent`, including inside longer identifiers such as
`ExampleComponentWrapper`, which becomes `MyServicePageWrapper`. -/
theorem substUnitRefs_plain_global :
    substUnitRefs "MyServicePage" "const ExampleComponentWrapper = 1;" =
      "const MyServicePageWrapper = 1;" := by decide

/-- C6: the Remover reports `skipped` for every absent target and changes
nothing; a present target is deleted recursively (nothing readable at or
below it afterwards) and reported as `removed`; an absent target is never an
error. -/
theorem remover_outcomes :
    (∀ (fs : FS) (ts : List FsPath),
      (∀ t ∈ ts, existsSync fs t = false) →
        runRemover fs ts = (fs, ts.map (fun _ => RemovalOutcome.skipped))) ∧
    (∀ (fs : FS) (t : FsPath), existsSync fs t = true →
      (removeStep fs t).2 = RemovalOutcome.removed ∧
      ∀ q, t <+: q → readFileSync (removeStep fs t).1 q = none) ∧
    (∀ (fs : FS) (t : FsPath), existsSync fs t = false →
      removeStep fs t = (fs, RemovalOutcome.skipped)) := by
  refine ⟨?_, ?_, ?_⟩
  · intro fs ts h
    induction ts with
    | nil => rfl
    | cons t ts ih =>
      have h1 := removeStep_absent (h t (List.mem_cons_self t ts))
      show (let r := removeStep fs t
        let rest := runRemover r.1 ts
        (rest.1, r.2 :: rest.2)) = _
      rw [h1]
      have h2 := ih (fun x hx => h x (List.mem_cons_of_mem t hx))
      simp only [h2]
      rfl
  · intro fs t ht
    rw [removeStep_present ht]
    exact ⟨rfl, fun q hq => readFileSync_rmSync_of_pref hq⟩
  · intro fs t ht
    exact removeStep_absent ht

/-- Witness for C6: two absent targets are both skipped; a present target is
removed and its files are gone. -/
theorem remover_outcomes_witness :
    runRemover [(["src", "a.ts"], "x")] [servicesDirPath, devDirPath] =
      ([(["src", "a.ts"], "x")],
        [RemovalOutcome.skipped, RemovalOutcome.skipped]) ∧
    (removeStep [(["src", "services", "t.ts"], "y")] servicesDirPath).2 =
      RemovalOutcome.removed ∧
    readFileSync (removeStep [(["src", "services", "t.ts"], "y")]
      servicesDirPath).1 ["src", "services", "t.ts"] = none :=
  ⟨remover_outcomes.1 [(["src", "a.ts"], "x")] [servicesDirPath, devDirPath]
      (by decide),
   (remover_outcomes.2.1 _ servicesDirPath (by decide)).1,
   (remover_outcomes.2.1 _ servicesDirPath (by decide)).2
      ["src", "services", "t.ts"] (by decide)⟩

/-- C10: the manifest is only read: after any run of either variant,
successful or failed, the content of `package.json` is unchanged. -/
theorem manifest_read_only :
    ∀ (parse : String → Option (Option String)) (fs : FS),
      readFileSync (cleanupScaffolding parse fs).1 packageJsonPath =
        readFileSync fs packageJsonPath ∧
      readFileSync (cleanupScaffoldingBackend parse fs).1 packageJsonPath =
        readFileSync fs packageJsonPath := by
  intro parse fs
  constructor
  · by_cases h0 : fs.isEmpty
    · unfold cleanupScaffolding
      rw [if_pos h0]
    · cases hm : readFileSync fs packageJsonPath with
      | none =>
        rcases cleanupScaffolding_no_manifest parse hm with h | h <;>
          rw [h] <;> exact hm
      | some m =>
        cases hp : parse m with
        | none =>
          unfold cleanupScaffolding
          rw [if_neg h0]
          simp only [hm, hp]
        | some idOpt =>
          cases idOpt with
          | none =>
            unfold cleanupScaffolding
            rw [if_neg h0]
            simp only [hm, hp]
          | some pid =>
            by_cases hpe : pid.isEmpty
            · rw [cleanupScaffolding_missing_id hm hp
                (by simp only [idFalsy]; exact hpe)]
              exact hm
            · have hpe2 : pid.isEmpty = false := by simpa using hpe
              rw [cleanupScaffolding_valid hm hp hpe2]
              rw [readFileSync_mutateFE_pkg]
              exact hm
  · by_cases h0 : fs.isEmpty
    · unfold cleanupScaffoldingBackend
      rw [if_pos h0]
    · cases hm : readFileSync fs packageJsonPath with
      | none =>
        rcases cleanupScaffoldingBackend_no_manifest parse hm
          with h | h <;> rw [h] <;> exact hm
      | some m =>
        cases hp : parse m with
        | none =>
          unfold cleanupScaffoldingBackend
          rw [if_neg h0]
          simp only [hm, hp]
        | some idOpt =>
          cases idOpt with
          | none =>
            unfold cleanupScaffoldingBackend
            rw [if_neg h0]
            simp only [hm, hp]
          | some pid =>
            by_cases hpe : pid.isEmpty
            · rw [cleanupScaffoldingBackend_missing_id hm hp
                (by simp only [idFalsy]; exact hpe)]
              exact hm
            · have hpe2 : pid.isEmpty = false := by simpa using hpe
              rw [cleanupScaffoldingBackend_valid hm hp hpe2]
              rw [readFileSync_mutateBE_pkg]
              exact hm

/-- C7: in the frontend rename, for both the component file and the test
file, the rewritten file is written under its new name before the original
is deleted: after every prefix of the sub-step's mutations, if the original
file is gone then its rewritten replacement already exists. -/
theorem rename_write_before_delete :
    ∀ (pid : String) (fs : FS),
    ((readFileSync fs (componentFilePath (componentName pid))).isSome = true →
      ∀ k : Nat,
        readFileSync
          (applyOps fs (List.take k (componentFileOps (componentName pid) fs)))
          (componentFilePath (componentName pid)) = none →
        (readFileSync
          (applyOps fs (List.take k (componentFileOps (componentName pid) fs)))
          (newComponentFilePath (componentName pid))).isSome = true) ∧
    ((readFileSync fs (testFilePath (componentName pid))).isSome = true →
      ∀ k : Nat,
        readFileSync
          (applyOps fs (List.take k (testFileOps (componentName pid) fs)))
          (testFilePath (componentName pid)) = none →
        (readFileSync
          (applyOps fs (List.take k (testFileOps (componentName pid) fs)))
          (newTestFilePath (componentName pid))).isSome = true) := by
  intro pid fs
  constructor
  · intro hs k hold
    obtain ⟨c, hc⟩ := Option.isSome_iff_exists.mp hs
    have hops : componentFileOps (componentName pid) fs =
        [FsOp.write (newComponentFilePath (componentName pid))
          (substComponentFile (componentName pid) c),
         FsOp.unlink (componentFilePath (componentName pid))] := by
      unfold componentFileOps
      rw [hc]
    rcases k with _ | (_ | k)
    · have hold2 : readFileSync fs
          (componentFilePath (componentName pid)) = none := hold
      rw [hc] at hold2
      cases hold2
    · rw [hops]
      show (readFileSync
        (writeFileSync fs (newComponentFilePath (componentName pid))
          (substComponentFile (componentName pid) c))
        (newComponentFilePath (componentName pid))).isSome = true
      rw [readFileSync_writeFileSync_self]
      rfl
    · rw [hops, List.take_succ_cons, List.take_succ_cons, List.take_nil]
      show (readFileSync
        (unlinkSync
          (writeFileSync fs (newComponentFilePath (componentName pid))
            (substComponentFile (componentName pid) c))
          (componentFilePath (componentName pid)))
        (newComponentFilePath (componentName pid))).isSome = true
      rw [readFileSync_unlinkSync_other (newCompFile_ne_compFile pid),
        readFileSync_writeFileSync_self]
      rfl
  · intro hs k hold
    obtain ⟨c, hc⟩ := Option.isSome_iff_exists.mp hs
    have hops : testFileOps (componentName pid) fs =
        [FsOp.write (newTestFilePath (componentName pid))
          (substUnitRefs (componentName pid) c),
         FsOp.unlink (testFilePath (componentName pid))] := by
      unfold testFileOps
      rw [hc]
    rcases k with _ | (_ | k)
    · have hold2 : readFileSync fs
          (testFilePath (componentName pid)) = none := hold
      rw [hc] at hold2
      cases hold2
    · rw [hops]
      show (readFileSync
        (writeFileSync fs (newTestFilePath (componentName pid))
          (substUnitRefs (componentName pid) c))
        (newTestFilePath (componentName pid))).isSome = true
      rw [readFileSync_writeFileSync_self]
      rfl
    · rw [hops, List.take_succ_cons, List.take_succ_cons, List.take_nil]
      show (readFileSync
        (unlinkSync
          (writeFileSync fs (newTestFilePath (componentName pid))
            (substUnitRefs (componentName pid) c))
          (testFilePath (componentName pid)))
        (newTestFilePath (componentName pid))).isSome = true
      rw [readFileSync_unlinkSync_other (newTestFile_ne_testFile pid),
        readFileSync_writeFileSync_self]
      rfl

/-- Witness for C7 on a concrete directory, after both mutations. -/
theorem rename_write_before_delete_witness :
    (readFileSync
      (applyOps wfs
        (List.take 2 (componentFileOps (componentName "my-service") wfs)))
      (newComponentFilePath (componentName "my-service"))).isSome = true ∧
    (readFileSync
      (applyOps wfs
        (List.take 2 (testFileOps (componentName "my-service") wfs)))
      (newTestFilePath (componentName "my-service"))).isSome = true :=
  ⟨(rename_write_before_delete "my-service" wfs).1 (by decide) 2 (by decide),
   (rename_write_before_delete "my-service" wfs).2 (by decide) 2 (by decide)⟩

/-- C8: if the placeholder directory is missing, the whole rename block is a
silent no-op; if it is present but the main component file is missing, only
that sub-step is skipped while the test-file and index-file sub-steps still
run, each guarded solely by its own file's existence. -/
theorem rename_guard_independence :
    (∀ (cn : String) (fs : FS), existsSync fs exampleComponentDir = false →
      renameBlock cn fs = (fs, none)) ∧
    (∀ (pid : String) (fs fs1 : FS) (tc ic : String),
      existsSync fs exampleComponentDir = true →
      renameSync fs exampleComponentDir (newComponentDir (componentName pid)) =
        Except.ok fs1 →
      readFileSync fs1 (componentFilePath (componentName pid)) = none →
      readFileSync fs1 (testFilePath (componentName pid)) = some tc →
      readFileSync fs1 (indexFilePath (componentName pid)) = some ic →
      componentFileStep (componentName pid) fs1 = fs1 ∧
      renameBlock (componentName pid) fs =
        (indexFileStep (componentName pid)
          (testFileStep (componentName pid) fs1), none) ∧
      readFileSync
        (indexFileStep (componentName pid)
          (testFileStep (componentName pid) fs1))
        (newTestFilePath (componentName pid)) =
          some (substUnitRefs (componentName pid) tc) ∧
      readFileSync
        (indexFileStep (componentName pid)
          (testFileStep (componentName pid) fs1))
        (testFilePath (componentName pid)) = none ∧
      readFileSync
        (indexFileStep (componentName pid)
          (testFileStep (componentName pid) fs1))
        (indexFilePath (componentName pid)) =
          some (substUnitRefs (componentName pid) ic)) := by
  constructor
  · intro cn fs hg
    exact renameBlock_skip hg
  · intro pid fs fs1 tc ic hg hrs hcomp htc hic
    have hcstep : componentFileStep (componentName pid) fs1 = fs1 :=
      componentFileStep_of_none hcomp
    have hidx_pre : readFileSync (testFileStep (componentName pid) fs1)
        (indexFilePath (componentName pid)) = some ic := by
      rw [readFileSync_testFileStep_other (newTestFile_ne_indexFile pid).symm
        (testFile_ne_indexFile (componentName pid)).symm]
      exact hic
    refine ⟨hcstep, ?_, ?_, ?_, ?_⟩
    · unfold renameBlock
      rw [if_pos hg]
      simp only [hrs]
      rw [hcstep]
    · rw [readFileSync_indexFileStep_other (newTestFile_ne_indexFile pid),
        testFileStep_of_some htc,
        readFileSync_unlinkSync_other (newTestFile_ne_testFile pid)]
      exact readFileSync_writeFileSync_self
    · rw [readFileSync_indexFileStep_other
        (testFile_ne_indexFile (componentName pid)),
        testFileStep_of_some htc]
      exact readFileSync_unlinkSync_self
    · rw [indexFileStep_of_some hidx_pre]
      exact readFileSync_writeFileSync_self

/-- Witness for C8: an empty tree skips the block; a renamed directory with
only a test file and an index file runs those two sub-steps and skips the
component sub-step. -/
theorem rename_guard_independence_witness :
    renameBlock "X" [] = ([], none) ∧
    componentFileStep (componentName "my-service") wrenamed = wrenamed ∧
    readFileSync
      (indexFileStep (componentName "my-service")
        (testFileStep (componentName "my-service") wrenamed))
      (testFilePath (componentName "my-service")) = none :=
  ⟨rename_guard_independence.1 "X" [] (by decide),
   (rename_guard_independence.2 "my-service" wpre wrenamed
      "ExampleComponent tested\n" idxContent (by decide) rfl
      (by decide) (by decide) (by decide)).1,
   (rename_guard_independence.2 "my-service" wpre wrenamed
      "ExampleComponent tested\n" idxContent (by decide) rfl
      (by decide) (by decide) (by decide)).2.2.2.1⟩

/-- C9: whenever `src/router.ts` exists in a valid backend package, the
backend variant replaces its whole content with the fixed `simpleRouter`
string, no matter what the file contained, and the run succeeds. -/
theorem router_overwrite_constant :
    ∀ (parse : String → Option (Option String)) (fs : FS) (m pid c : String),
      readFileSync fs packageJsonPath = some m →
      parse m = some (some pid) → pid.isEmpty = false →
      readFileSync fs routerTsPath = some c →
      readFileSync (cleanupScaffoldingBackend parse fs).1 routerTsPath =
        some simpleRouter ∧
      (cleanupScaffoldingBackend parse fs).2 = none := by
  intro parse fs m pid c hm hp hpe hr
  rw [cleanupScaffoldingBackend_valid hm hp hpe, mutateBE_eq]
  constructor
  · show readFileSync
      ((removeStep
        (removeFileStep
          (removeFileStep
            (patchPluginBEStep (routerStep ((removeStep fs servicesDirPath).1)))
            pluginTestTsPath)
          routerTestTsPath)
        devDirPath).1) routerTsPath = some simpleRouter
    rw [readFileSync_removeStep_other (t := devDirPath) (by decide),
      readFileSync_removeFileStep_other (by decide),
      readFileSync_removeFileStep_other (by decide),
      readFileSync_patchPluginBEStep_other (by decide)]
    have h1 : readFileSync ((removeStep fs servicesDirPath).1) routerTsPath =
        some c := by
      rw [readFileSync_removeStep_other (t := servicesDirPath) (by decide)]
      exact hr
    rw [routerStep_of_some h1]
    exact readFileSync_writeFileSync_self
  · rfl

/-- Witness for C9 on the scaffolded backend package. -/
theorem router_overwrite_constant_witness :
    readFileSync (cleanupScaffoldingBackend parseFix bePkg).1 routerTsPath =
      some simpleRouter ∧
    (cleanupScaffoldingBackend parseFix bePkg).2 = none :=
  router_overwrite_constant parseFix bePkg manifestEX "example"
    "import express from 'express';\nexport const old = 1;\n"
    (by decide) (by decide) (by decide) (by decide)

set_option maxRecDepth 100000 in
set_option maxHeartbeats 4000000 in
/-- C3 counterexample: a successful frontend run on a package that contains
the placeholder component but also an extra source file mentioning
`ExampleComponent` leaves that occurrence in place — so, as stated for every
package, the claim is false. -/
theorem frontend_leftover_reference :
    (cleanupScaffolding parseFix notesPkg).2 = none ∧
    existsSync notesPkg exampleComponentDir = true ∧
    readFileSync (cleanupScaffolding parseFix notesPkg).1 ["src", "notes.ts"] =
      some "// see ExampleComponent docs\n" ∧
    occurs "ExampleComponent".data "// see ExampleComponent docs\n".data =
      true := by
  refine ⟨by decide, by decide, by decide, by decide⟩

set_option maxRecDepth 100000 in
set_option maxHeartbeats 4000000 in
/-- C3 (amended): on the scaffolder-generated package contents — where
`ExampleComponent` occurs only in the files and forms the tool rewrites —
a successful frontend run leaves no occurrence of `ExampleComponent` in any
file under `src/`, and the renamed component file exports exactly the
derived component name. -/
theorem frontend_scaffold_clean :
    (cleanupScaffolding parseFix scaffoldPkg).2 = none ∧
    ((cleanupScaffolding parseFix scaffoldPkg).1.all
      (fun e => !(["src"].isPrefixOf e.1) ||
        !(occurs "ExampleComponent".data e.2.data))) = true ∧
    readFileSync (cleanupScaffolding parseFix scaffoldPkg).1
      (newComponentFilePath (componentName "my-service")) =
        some cleanCompContent ∧
    occurs "export const MyServicePage".data cleanCompContent.data = true := by
  refine ⟨by decide, by decide, by decide, by decide⟩

set_option maxRecDepth 100000 in
set_option maxHeartbeats 4000000 in
/-- C1 counterexample: for the identifier `example-component` the derived
name is `ExampleComponentPage`, so the `m.ExampleComponent` substitution
fires again on the second run and the wiring file keeps growing — running
the frontend pipeline twice does not equal running it once. -/
theorem pipeline_not_idempotent :
    (cleanupScaffolding parseFix pkgCE).2 = none ∧
    (cleanupScaffolding parseFix ((cleanupScaffolding parseFix pkgCE).1)).2 =
      none ∧
    readFileSync (cleanupScaffolding parseFix
        ((cleanupScaffolding parseFix pkgCE).1)).1 pluginTsPath ≠
      readFileSync (cleanupScaffolding parseFix pkgCE).1 pluginTsPath := by
  refine ⟨by decide, by decide, by decide⟩

/-- C1 (amended): for every valid package (with distinct file paths) on
which the first run succeeds and whose once-patched wiring file is a fixed
point of the wiring-file substitutions — which fails only when the derived
component name re-triggers a pattern, as with `example-component` — running
either pipeline variant a second time returns exactly the tree the first run
produced. -/
theorem pipeline_idempotent_amended :
    (∀ (parse : String → Option (Option String)) (fs fs1 : FS) (m pid : String),
      NodupKeys fs →
      readFileSync fs packageJsonPath = some m →
      parse m = some (some pid) → pid.isEmpty = false →
      cleanupScaffolding parse fs = (fs1, none) →
      (∀ c, readFileSync fs1 pluginTsPath = some c →
        patchPluginFE (componentName pid) c = c) →
      cleanupScaffolding parse fs1 = (fs1, none)) ∧
    (∀ (parse : String → Option (Option String)) (fs fs1 : FS) (m pid : String),
      NodupKeys fs →
      readFileSync fs packageJsonPath = some m →
      parse m = some (some pid) → pid.isEmpty = false →
      cleanupScaffoldingBackend parse fs = (fs1, none) →
      (∀ c, readFileSync fs1 pluginTsPath = some c → patchPluginBE c = c) →
      cleanupScaffoldingBackend parse fs1 = (fs1, none)) := by
  constructor
  · intro parse fs fs1 m pid hnd hm hp hpe h1 hfix
    rw [cleanupScaffolding_valid hm hp hpe] at h1
    obtain ⟨nd1, hfetch, hec, hdev, hpt, hpkg⟩ := mutateFE_post hnd h1
    have hm1 : readFileSync fs1 packageJsonPath = some m := by
      rw [hpkg]
      exact hm
    rw [cleanupScaffolding_valid hm1 hp hpe]
    exact mutateFE_idem nd1 hfetch hec hdev hpt hfix
  · intro parse fs fs1 m pid hnd hm hp hpe h1 hfix
    rw [cleanupScaffoldingBackend_valid hm hp hpe] at h1
    obtain ⟨nd1, hserv, hrouter, hpt, hrt, hdev, hpkg⟩ := mutateBE_post hnd h1
    have hm1 : readFileSync fs1 packageJsonPath = some m := by
      rw [hpkg]
      exact hm
    rw [cleanupScaffoldingBackend_valid hm1 hp hpe]
    exact mutateBE_idem nd1 hserv hrouter hpt hrt hdev hfix

set_option maxRecDepth 100000 in
set_option maxHeartbeats 4000000 in
/-- Witness for C1 (amended): a small frontend package and the scaffolded
backend package, on which a second run reproduces the first run's tree. -/
theorem pipeline_idempotent_amended_witness :
    cleanupScaffolding parseFix ((cleanupScaffolding parseFix pkgFE1).1) =
      ((cleanupScaffolding parseFix pkgFE1).1, none) ∧
    cleanupScaffoldingBackend parseFix
        ((cleanupScaffoldingBackend parseFix bePkg).1) =
      ((cleanupScaffoldingBackend parseFix bePkg).1, none) := by
  constructor
  · apply pipeline_idempotent_amended.1 parseFix pkgFE1 _ manifestMS
      "my-service" (by decide) (by decide) (by decide) (by decide) (by decide)
    intro c hc
    have he : readFileSync (cleanupScaffolding parseFix pkgFE1).1
        pluginTsPath = some "export const nothing = 1;\n" := by decide
    rw [he] at hc
    injection hc with hcc
    rw [← hcc]
    decide
  · apply pipeline_idempotent_amended.2 parseFix bePkg _ manifestEX
      "example" (by decide) (by decide) (by decide) (by decide) (by decide)
    intro c hc
    have he : readFileSync (cleanupScaffoldingBackend parseFix bePkg).1
        pluginTsPath = some bePatchedPlugin := by decide
    rw [he] at hc
    injection hc with hcc
    rw [← hcc]
    decide
